import Mathlib

/-!
Verification of the agent session controller and browser tool pipelines of the
cf-ai-agent worker (src/worker/agent.ts, src/worker/tools/getWeather.ts, which
also contains convertToPdf.ts, captureScreenshot.ts and streamAI.ts).

The development is a shallow embedding: the pure computations of the source are
transcribed as Lean functions; effectful calls (AI.run, fetch, puppeteer,
JSON.parse, regex matching, Date.now) are passed in as explicit oracle values or
oracle functions, and a thrown JS exception is modelled as `Except.error`.
-/

namespace AgentSpec

/-- A thrown JavaScript exception, carrying `(e as Error).message`. -/
structure JsErr where
  msg : String
deriving DecidableEq, Repr

/-! ### String helpers

The JS string methods the source uses are re-implemented here by structural
recursion over the character list, so that every definition evaluates inside
the kernel (the library's `String.startsWith`, `splitOn`, `replace`, `trim`
and `toLower` are well-founded/`Substring`-based and do not). -/

/-- Core of `startsWith`: does the first list start with the second? -/
def charsStarts : List Char → List Char → Bool
  | _, [] => true
  | [], _ :: _ => false
  | a :: s, b :: p => a == b && charsStarts s p

/-- JS `s.startsWith(pre)`. -/
def jsStartsWith (s pre : String) : Bool := charsStarts s.data pre.data

/-- JS `s.trimStart()`. -/
def jsTrimStart (s : String) : String :=
  String.mk (s.data.dropWhile Char.isWhitespace)

/-- JS `s.trim()`. -/
def jsTrim (s : String) : String :=
  String.mk ((((s.data.dropWhile Char.isWhitespace).reverse).dropWhile
    Char.isWhitespace).reverse)

/-- Core of `split` for a non-empty literal separator: leftmost,
non-overlapping.  `acc` holds the current piece reversed; `fuel` only bounds
the recursion depth (callers pass the input length plus one, which is always
enough). -/
def splitGo (sep : List Char) : Nat → List Char → List Char → List String
  | 0, acc, rest => [String.mk (acc.reverse ++ rest)]
  | fuel + 1, acc, rest =>
    if sep ≠ [] ∧ charsStarts rest sep then
      String.mk acc.reverse :: splitGo sep fuel [] (rest.drop sep.length)
    else
      match rest with
      | [] => [String.mk acc.reverse]
      | c :: r => splitGo sep fuel (c :: acc) r

/-- JS `s.split(sep)` for a non-empty literal separator. -/
def jsSplitOn (s sep : String) : List String :=
  splitGo sep.data (s.data.length + 1) [] s.data

/-- JS `s.replace(/pat/g, rep)` for a literal non-empty pattern (global
replace = split and re-join). -/
def jsReplaceAll (s pat rep : String) : String :=
  String.intercalate rep (jsSplitOn s pat)

/-- JS `s.toLowerCase()` (per-character, as the library's `String.toLower`). -/
def jsToLower (s : String) : String := String.mk (s.data.map Char.toLower)

/-- JSON-like runtime values, modelling what `env.AI.run` and `JSON.parse` may
produce.  `jnull` is the JS `null`. -/
inductive JVal where
  | jnull
  | jbool (b : Bool)
  | jnum (q : ℚ)
  | jstr (s : String)
  | jarr (elems : List JVal)
  | jobj (fields : List (String × JVal))

/-- `isRecord` from agent.ts: `!!v && typeof v === "object" && !Array.isArray(v)`.
`null` is falsy and an array is excluded, so only a keyed object qualifies. -/
def isRecord : JVal → Bool
  | .jobj _ => true
  | _ => false

/-- JS optional-chained property access `v?.k`: reading a property of a
non-object (or an absent key) yields `undefined`, modelled as `none`.
Objects are modelled without duplicate keys, so first-match lookup is used. -/
def jget : JVal → String → Option JVal
  | .jobj fields, k => (fields.find? (fun p => p.1 = k)).map (·.2)
  | _, _ => none

/-- `#parseToolArgs` from agent.ts: a keyed object is taken as-is; a string is
run through `JSON.parse` (the `jsonParse` oracle, `none` = the parse threw) and
kept only if the parse yields a keyed object; everything else gives `{}`. -/
def parseToolArgs (jsonParse : String → Option JVal) (raw : Option JVal) :
    List (String × JVal) :=
  match raw with
  | some (.jobj fields) => fields
  | some (.jstr s) =>
    match jsonParse s with
    | some (.jobj fields) => fields
    | _ => []
  | _ => []

/-- `#tryPlanTool` from agent.ts.  `aiOut` is the outcome of `this.env.AI.run`
(the whole try-block body is wrapped by `catch { return null }`).  The source
reads `obj?.tool_calls` after an `isRecord` guard, requires a non-empty array,
takes the first element, and requires `call?.function?.name === "getWeather"`. -/
def tryPlanTool (jsonParse : String → Option JVal) (aiOut : Except JsErr JVal) :
    Option (List (String × JVal)) :=
  match aiOut with
  | .error _ => none
  | .ok out =>
    let obj : Option JVal := if isRecord out then some out else none
    match obj.bind (fun o => jget o "tool_calls") with
    | some (.jarr []) => none
    | some (.jarr (call :: _)) =>
      match (jget call "function").bind (fun f => jget f "name") with
      | some (.jstr n) =>
        if n = "getWeather" then
          some (parseToolArgs jsonParse
            ((jget call "function").bind (fun f => jget f "arguments")))
        else none
      | _ => none
    | _ => none

/-- Claim C5, spec side: "the model response's first tool call". -/
def firstToolCall (out : JVal) : Option JVal :=
  match jget out "tool_calls" with
  | some (.jarr (c :: _)) => some c
  | _ => none

/-- Claim C5, spec side: the declared name of a tool call, when it is a string. -/
def toolCallName (call : JVal) : Option String :=
  match (jget call "function").bind (fun f => jget f "name") with
  | some (.jstr n) => some n
  | _ => none

/-- Claim C5, spec side: the raw `arguments` value of a tool call. -/
def toolCallArgs (call : JVal) : Option JVal :=
  (jget call "function").bind (fun f => jget f "arguments")

/-- Claim C5, spec side, in the claim's words: the planner returns a getWeather
call exactly when the first tool call of the response is named "getWeather";
any call failure yields `none`; the argument value is taken as-is when a keyed
object, parsed when a JSON-encoded string, and replaced by `{}` otherwise. -/
def planSpec (jsonParse : String → Option JVal) (aiOut : Except JsErr JVal) :
    Option (List (String × JVal)) :=
  match aiOut with
  | .error _ => none
  | .ok out =>
    match firstToolCall out with
    | none => none
    | some call =>
      if toolCallName call = some "getWeather" then
        some (match toolCallArgs call with
          | some (.jobj fields) => fields
          | some (.jstr s) =>
            match jsonParse s with
            | some (.jobj fields) => fields
            | _ => []
          | _ => [])
      else none

/-! ## Streaming response relay (`#streamAssistant` in agent.ts, `streamAI`) -/

/-- Outcome of `JSON.parse(payload) as { response?: string }` in
`#streamAssistant`: the parse may throw, succeed without a string `response`
field, or succeed with one. -/
inductive SseParse where
  | fail
  | okNoResp
  | okResp (s : String)

/-- The delta contributed by one data payload in `#streamAssistant`:
empty payloads and the `[DONE]` sentinel are skipped (`continue`); a JSON
payload contributes its `response` string when non-empty; a payload that fails
to parse is forwarded raw. -/
def payloadStep (parse : String → SseParse) (payload : String) : Option String :=
  if payload = "" ∨ payload = "[DONE]" then none
  else
    match parse payload with
    | .okResp piece => if piece = "" then none else some piece
    | .okNoResp => none
    | .fail => some payload

/-- The data payloads consumed by `#streamAssistant` from the decoded byte
stream: the buffer loop takes every complete `"\n\n"`-terminated frame (the
trailing partial frame left in `buffer` at stream end is never processed), each
frame is normalised `"\r\n" → "\n"` and split into lines, and each
`"data:"`-prefixed line yields `line.slice(5).trimStart()`. -/
def dataPayloads (text : String) : List String :=
  (((jsSplitOn text "\n\n").dropLast).map (fun frame =>
      (jsSplitOn (jsReplaceAll frame "\r\n" "\n") "\n").filterMap (fun line =>
        if jsStartsWith line "data:" then some (jsTrimStart (line.drop 5))
        else none))).flatten

/-- One step of the `#streamAssistant` accumulation loop: the pair is
(deltas emitted so far, accumulated `full` text). -/
def relayStep (parse : String → SseParse) (acc : List String × String)
    (payload : String) : List String × String :=
  match payloadStep parse payload with
  | none => acc
  | some d => (acc.1 ++ [d], acc.2 ++ d)

/-- The `#streamAssistant` stream-consumption loop over the decoded chunks:
every consumed payload is processed in order (there is no early exit in this
loop; the `[DONE]` sentinel is handled by `payloadStep` with a `continue`). -/
def streamAssistantRelay (parse : String → SseParse) (chunks : List String) :
    List String × String :=
  (dataPayloads (String.join chunks)).foldl (relayStep parse) ([], "")

/-- `streamAI` (the helper in streamAI.ts): a line is considered when its
trimmed form starts with `"data:"`, and its payload is `line.slice(5).trim()`. -/
def streamAIPayload (line : String) : Option String :=
  let l := jsTrim line
  if jsStartsWith l "data:" then some (jsTrim (l.drop 5)) else none

/-- The `streamAI` line loop.  `parse` models the `JSON.parse` plus nested
delta extraction (`none` = the parse threw; `some d` = the `??`-chain value).
On the `[DONE]` sentinel the source does `return full` — consumption stops and
the accumulated pair is returned unchanged, ignoring all later lines. -/
def streamAIGo (parse : String → Option String) (acc : List String × String) :
    List String → List String × String
  | [] => acc
  | line :: rest =>
    match streamAIPayload line with
    | none => streamAIGo parse acc rest
    | some payload =>
      if payload = "[DONE]" then acc
      else
        match parse payload with
        | some d =>
          if d = "" then streamAIGo parse acc rest
          else streamAIGo parse (acc.1 ++ [d], acc.2 ++ d) rest
        | none => streamAIGo parse (acc.1 ++ [payload], acc.2 ++ payload) rest

/-! ## Navigation retry ladder (captureScreenshot.ts / convertToPdf.ts)

The two capture tools contain character-identical `tryGo` helpers and retry
ladders, so the ladder is embedded once and used by both pipeline models. -/

/-- Puppeteer wait conditions (`waitUntil`). -/
inductive Wait where
  | networkidle0
  | networkidle2
  | load
  | domcontentloaded
deriving DecidableEq, Repr

/-- Outcome of one `tryGo` call: `page.goto` succeeded, threw with a message
containing "timeout" (case-insensitive), or threw otherwise. -/
inductive NavOutcome where
  | ok
  | timeout
  | fail
deriving DecidableEq, Repr

/-- One recorded navigation attempt (`navAttempts` entry): which host variant
(`www = true` means the `www.`-prefixed retry host) and wait condition were
used, and the outcome. -/
structure NavAttempt where
  www : Bool
  wait : Wait
  outcome : NavOutcome
deriving DecidableEq, Repr

/-- Oracle for navigation: the outcome of the k-th `page.goto` performed,
counted in the order the attempts happen. -/
abbrev NavEnv := Nat → NavOutcome

/-- `tryGo`: performs the next navigation attempt, appending to the attempt
trace and returning the outcome (the source's `true | "timeout" | "fail"`). -/
def tryGoM (env : NavEnv) (tr : List NavAttempt) (www : Bool) (w : Wait) :
    List NavAttempt × NavOutcome :=
  let o := env tr.length
  (tr ++ [⟨www, w, o⟩], o)

/-- The retry ladder exactly as written in both capture tools:
`wantWait` first; on a timeout (only), retry `"load"`; on any remaining
failure, retry `"domcontentloaded"`; then, when the host does not already start
with `www.` (`startsWww = false`), against the `www.` host: `wantWait`, then
`"load"` after ANY failure, then `"domcontentloaded"`. -/
def runLadder (env : NavEnv) (want : Wait) (startsWww : Bool) :
    List NavAttempt × NavOutcome :=
  let s1 := tryGoM env [] false want
  if s1.2 = .ok then s1 else
  let s2 := if s1.2 = .timeout then tryGoM env s1.1 false .load else s1
  if s2.2 = .ok then s2 else
  let s3 := tryGoM env s2.1 false .domcontentloaded
  if s3.2 = .ok then s3 else
  if startsWww then s3 else
  let s4 := tryGoM env s3.1 true want
  if s4.2 = .ok then s4 else
  let s5 := tryGoM env s4.1 true .load
  if s5.2 = .ok then s5 else
  tryGoM env s5.1 true .domcontentloaded

/-- Claim C2 as stated: the bare-host ladder, then "the same ladder once
against the www.-prefixed host" — i.e. on the www host too, `"load"` is retried
only after a timeout of the first attempt. -/
def claimLadder (env : NavEnv) (want : Wait) (startsWww : Bool) :
    List NavAttempt × NavOutcome :=
  let s1 := tryGoM env [] false want
  if s1.2 = .ok then s1 else
  let s2 := if s1.2 = .timeout then tryGoM env s1.1 false .load else s1
  if s2.2 = .ok then s2 else
  let s3 := tryGoM env s2.1 false .domcontentloaded
  if s3.2 = .ok then s3 else
  if startsWww then s3 else
  let s4 := tryGoM env s3.1 true want
  if s4.2 = .ok then s4 else
  let s5 := if s4.2 = .timeout then tryGoM env s4.1 true .load else s4
  if s5.2 = .ok then s5 else
  tryGoM env s5.1 true .domcontentloaded

/-- One step of the amended ladder description: host variant, wait condition,
and whether the step is attempted only when the previous outcome was a
timeout. -/
structure PlanStep where
  www : Bool
  w : Wait
  onlyTimeout : Bool
deriving DecidableEq, Repr

/-- Interpreter for a ladder plan: steps run in order until one succeeds; a
`www` step is skipped when the host already starts with `www.`; an
`onlyTimeout` step is skipped unless the previous performed attempt timed
out. -/
def runPlan (env : NavEnv) (startsWww : Bool) :
    List PlanStep → List NavAttempt → NavOutcome → List NavAttempt × NavOutcome
  | [], tr, cur => (tr, cur)
  | st :: rest, tr, cur =>
    if cur = .ok then (tr, cur)
    else if st.www ∧ startsWww then runPlan env startsWww rest tr cur
    else if st.onlyTimeout ∧ cur ≠ .timeout then runPlan env startsWww rest tr cur
    else
      let s := tryGoM env tr st.www st.w
      runPlan env startsWww rest s.1 s.2

/-- The amended ladder schedule: on the bare host `"load"` only after a
timeout; on the `www.` host `"load"` after any failure. -/
def ladderPlanSteps (want : Wait) : List PlanStep :=
  [⟨false, want, false⟩, ⟨false, .load, true⟩, ⟨false, .domcontentloaded, false⟩,
   ⟨true, want, false⟩, ⟨true, .load, false⟩, ⟨true, .domcontentloaded, false⟩]

/-- Concrete navigation oracle for the C2 counterexample: the first three
attempts fail without a timeout, the fourth succeeds. -/
def navEnvC2 : NavEnv := fun k => if k = 3 then .ok else .fail

/-! ## URL model (the platform `new URL` constructor and `normalizeUrl`) -/

/-- Characters allowed in a URL scheme after the first (WHATWG). -/
def isSchemeChar (c : Char) : Bool :=
  c.isAlphanum || c == '+' || c == '-' || c == '.'

/-- Characters that make a host invalid (WHATWG forbidden host code points,
restricted to the ones that can reach the host parser here). -/
def isBadHostChar (c : Char) : Bool :=
  c == ' ' || c == '\t' || c == '\n' || c == '\r' || c == '#' || c == '<' ||
  c == '>' || c == '[' || c == ']' || c == '\\' || c == '^' || c == '|'

/-- The WHATWG special schemes, which require an authority. -/
def specialSchemes : List String := ["http", "https", "ws", "wss", "ftp", "file"]

/-- Result of a successful `new URL(s)`: `scheme` is `protocol` without the
`":"`, `host` is the (lowercased) `hostname`, `path` the remainder. -/
structure UrlModel where
  scheme : String
  host : String
  port : String
  path : String
deriving DecidableEq, Repr

/-- Host/port validation: the host must contain no forbidden character, the
port must be digits-only (possibly empty), and the host may be empty only for
`file`. -/
def mkAuthority (scheme : String) (hostCs portCs rest : List Char) :
    Option UrlModel :=
  if hostCs.any isBadHostChar then none
  else if ¬ portCs.all Char.isDigit then none
  else if hostCs.isEmpty ∧ scheme ≠ "file" then none
  else some ⟨scheme, jsToLower (String.mk hostCs), String.mk portCs, String.mk rest⟩

/-- Authority parsing for a special scheme, on the input after the scheme,
colon and leading slashes: authority runs to the first `/`, `?` or `#`;
user-info before the last `@` is dropped; the host runs to the first `:`,
the rest is a digits-only (possibly empty) port. -/
def parseAuthority (scheme : String) (cs : List Char) : Option UrlModel :=
  let auth := cs.takeWhile (fun c => ¬ (c == '/' || c == '?' || c == '#'))
  let rest := cs.drop auth.length
  let hostport :=
    if auth.contains '@' then (auth.reverse.takeWhile (fun c => ¬ c == '@')).reverse
    else auth
  let hostCs := hostport.takeWhile (fun c => ¬ c == ':')
  let portCs := hostport.drop (hostCs.length + 1)
  mkAuthority scheme hostCs portCs rest

/-- Model of the platform `new URL(s)` constructor (WHATWG), covering scheme
extraction, special-scheme authority parsing with the slash-skipping rule, and
opaque paths for non-special schemes.  `none` models a thrown `TypeError`. -/
def jsNewURL (s : String) : Option UrlModel :=
  let cs := s.data
  let sch := cs.takeWhile isSchemeChar
  match sch, cs.drop sch.length with
  | [], _ => none
  | c :: _, ':' :: r =>
    if ¬ c.isAlpha then none
    else
      let scheme := jsToLower (String.mk sch)
      if specialSchemes.contains scheme then
        parseAuthority scheme (r.dropWhile (fun c => c == '/' || c == '\\'))
      else some ⟨scheme, "", "", String.mk r⟩
  | _, _ => none

/-- `normalizeUrl`, character-identical in captureScreenshot.ts and
convertToPdf.ts: trim; empty is rejected; if `new URL(raw)` succeeds, a
protocol other than `http:`/`https:` is rejected outright (NO `https://`
prefixing is attempted for it); only when `new URL(raw)` throws is
`new URL("https://" + raw)` tried, accepted if its protocol is `https:`.
(The source's `if (!u.protocol) throw` line is dead: a successful parse always
has a non-empty protocol.) -/
def normalizeUrl (input : String) : Option UrlModel :=
  let raw := jsTrim input
  if raw = "" then none
  else
    match jsNewURL raw with
    | some u => if u.scheme ≠ "http" ∧ u.scheme ≠ "https" then none else some u
    | none =>
      match jsNewURL ("https://" ++ raw) with
      | some u => if u.scheme ≠ "https" then none else some u
      | none => none

/-- Claim C4 as stated: accept the trimmed input when it parses as an absolute
`http`/`https` URL; OTHERWISE (any other parse outcome) attempt the
`https://`-prefixed form and accept it exactly when it parses. -/
def claimNormalizeUrl (input : String) : Option UrlModel :=
  let raw := jsTrim input
  match jsNewURL raw with
  | some u =>
    if u.scheme = "http" ∨ u.scheme = "https" then some u
    else jsNewURL ("https://" ++ raw)
  | none => jsNewURL ("https://" ++ raw)

/-- Claim C4 amended: a trimmed input that parses with a scheme other than
`http`/`https` is rejected immediately, without attempting the `https://`
prefix; prefixing happens only when the input does not parse at all. -/
def amendedNormalizeUrl (input : String) : Option UrlModel :=
  let raw := jsTrim input
  match jsNewURL raw with
  | some u => if u.scheme = "http" ∨ u.scheme = "https" then some u else none
  | none => jsNewURL ("https://" ++ raw)

/-- `withWww`, character-identical in both capture tools: when the hostname
does not already start with `www.`, the `www.`-prefixed copy; else `null`. -/
def withWww (u : UrlModel) : Option UrlModel :=
  if ¬ jsStartsWith u.host "www." then some { u with host := "www." ++ u.host }
  else none

/-! ## Capture pipelines (captureScreenshot.ts, convertToPdf.ts) -/

/-- The browser-tool error codes. -/
inductive ErrCode where
  | BAD_URL
  | NAV_TIMEOUT
  | NAV_FAIL
  | CAPTURE_FAIL
  | UPLOAD_FAIL
deriving DecidableEq, Repr

/-- `ScreenshotResult`: the success record (the derived `/`-prefixed download
`url` and the constant `contentType` are omitted as determined by `r2Key`), or
the `{ ok: false, error, code }` failure record. -/
inductive ScreenshotResultM where
  | ok (r2Key : String) (bytes : Nat) (width height : Nat) (sourceUrl : String)
  | err (error : String) (code : ErrCode)
deriving DecidableEq, Repr

/-- `PdfResult`: likewise. -/
inductive PdfResultM where
  | ok (r2Key : String) (bytes : Nat) (sourceUrl : String)
  | err (error : String) (code : ErrCode)
deriving DecidableEq, Repr

/-- The external effects a capture pipeline performs, in order. -/
inductive Effect where
  | launch
  | newPage
  | goto (www : Bool) (w : Wait)
  | settle
  | captureShot
  | renderPdf
  | upload
  | closeBrowser
deriving DecidableEq, Repr

/-- Oracle for one capture-pipeline run.  `launch` is `puppeteer.launch`
(OUTSIDE the pipeline's try block); `pageSetup` collects
`newPage`/`setViewport`/`setBypassCSP`/`setExtraHTTPHeaders`/`setUserAgent`;
`nav` drives `tryGo`; `shot`/`pdfRender` are `page.screenshot`/`page.pdf`
(`ok` = byte length); `upload` is the R2 `put`; `uuid` is
`crypto.randomUUID()`; `finalUrl` is `page.url()` after navigation. -/
structure CaptureEnv where
  launch : Except JsErr Unit
  pageSetup : Except JsErr Unit
  nav : NavEnv
  finalUrl : String
  shot : Except JsErr Nat
  pdfRender : Except JsErr Nat
  upload : Except JsErr Unit
  uuid : String

/-- JS `haystack.includes(needle)` for a non-empty needle. -/
def jsIncludes (hay needle : String) : Bool := 2 ≤ (jsSplitOn hay needle).length

/-- The capture tools' catch-block classification:
`msg.toLowerCase().includes("nav") ? "NAV_FAIL" : "CAPTURE_FAIL"`. -/
def classifyCatch (msg : String) : ErrCode :=
  if jsIncludes (jsToLower msg) "nav" then .NAV_FAIL else .CAPTURE_FAIL

/-- `(e as Error)?.message || "Capture error"`. -/
def catchMsg (e : JsErr) : String := if e.msg = "" then "Capture error" else e.msg

/-- The error record built by the capture tools' catch block. -/
def catchErrShot (e : JsErr) : ScreenshotResultM :=
  let code := classifyCatch (catchMsg e)
  .err (if code = .NAV_FAIL then "Navigation failed" else "Capture failed") code

/-- The error record built by `convertToPdf`'s catch block. -/
def catchErrPdf (e : JsErr) : PdfResultM :=
  let code := classifyCatch (catchMsg e)
  .err (if code = .NAV_FAIL then "Navigation failed" else "Capture failed") code

/-- The navigation-failure record (`NAV_TIMEOUT` exactly when the last
attempt's outcome was a timeout). -/
def navFailShot (out : NavOutcome) : ScreenshotResultM :=
  if out = .timeout then .err "Navigation timed out" .NAV_TIMEOUT
  else .err "Navigation failed" .NAV_FAIL

/-- As `navFailShot`, for the PDF tool. -/
def navFailPdf (out : NavOutcome) : PdfResultM :=
  if out = .timeout then .err "Navigation timed out" .NAV_TIMEOUT
  else .err "Navigation failed" .NAV_FAIL

/-- `Math.max(1000, Math.min(60000, args.timeoutMs ?? 20000))` — the clamped
navigation timeout (recorded for fidelity; the oracle absorbs real timing). -/
def clampTimeout (t : Option Int) : Int := max 1000 (min 60000 (t.getD 20000))

/-- `captureScreenshot`'s try-block body, after a successful launch.  A
`.error` means the body threw (to be classified by the catch block); the
effect list records what was performed.  The upload has its own try/catch that
converts ANY upload failure into `UPLOAD_FAIL`. -/
def screenshotBody (env : CaptureEnv) (sid : String) (u0 : UrlModel)
    (want : Wait) (vw vh : Nat) : Except JsErr ScreenshotResultM × List Effect :=
  match env.pageSetup with
  | .error e => (.error e, [.newPage])
  | .ok _ =>
    let nav := runLadder env.nav want (jsStartsWith u0.host "www.")
    let effs := [Effect.newPage] ++ nav.1.map (fun a => Effect.goto a.www a.wait)
    if nav.2 = .ok then
      match env.shot with
      | .error e => (.error e, effs ++ [.settle, .captureShot])
      | .ok bytes =>
        match env.upload with
        | .error _ =>
          (.ok (.err "Upload failed" .UPLOAD_FAIL),
           effs ++ [.settle, .captureShot, .upload])
        | .ok _ =>
          (.ok (.ok ("files/" ++ sid ++ "/" ++ env.uuid ++ ".png") bytes vw vh
             env.finalUrl),
           effs ++ [.settle, .captureShot, .upload])
    else (.ok (navFailShot nav.2), effs)

/-- Arguments of `captureScreenshot` (`ScreenshotArgs`). -/
structure ShotArgs where
  url : String
  fullPage : Option Bool
  viewportW : Option Nat
  viewportH : Option Nat
  waitUntil : Option Wait
  timeoutMs : Option Int

/-- `captureScreenshot`: URL normalization happens BEFORE the browser launch
(a `BAD_URL` run performs no effect at all); `puppeteer.launch` happens before
the try block, so a launch failure propagates (`Except.error`); everything
inside the try block is converted by the catch block; the finally block closes
the browser (its own failures are swallowed). -/
def captureScreenshot (env : CaptureEnv) (sid : String) (args : ShotArgs) :
    Except JsErr ScreenshotResultM × List Effect :=
  match normalizeUrl args.url with
  | none => (.ok (.err "Invalid URL" .BAD_URL), [])
  | some u0 =>
    match env.launch with
    | .error e => (.error e, [.launch])
    | .ok _ =>
      let want := args.waitUntil.getD .networkidle0
      let vw := args.viewportW.getD 1280
      let vh := args.viewportH.getD 800
      match screenshotBody env sid u0 want vw vh with
      | (.error e, effs) => (.ok (catchErrShot e), [Effect.launch] ++ effs ++ [.closeBrowser])
      | (.ok r, effs) => (.ok r, [Effect.launch] ++ effs ++ [.closeBrowser])

/-- `convertToPdf`'s try-block body (same structure; `page.pdf` instead of
`page.screenshot`, `.pdf` key extension). -/
def pdfBody (env : CaptureEnv) (sid : String) (u0 : UrlModel) (want : Wait) :
    Except JsErr PdfResultM × List Effect :=
  match env.pageSetup with
  | .error e => (.error e, [.newPage])
  | .ok _ =>
    let nav := runLadder env.nav want (jsStartsWith u0.host "www.")
    let effs := [Effect.newPage] ++ nav.1.map (fun a => Effect.goto a.www a.wait)
    if nav.2 = .ok then
      match env.pdfRender with
      | .error e => (.error e, effs ++ [.settle, .renderPdf])
      | .ok bytes =>
        match env.upload with
        | .error _ =>
          (.ok (.err "Upload failed" .UPLOAD_FAIL),
           effs ++ [.settle, .renderPdf, .upload])
        | .ok _ =>
          (.ok (.ok ("files/" ++ sid ++ "/" ++ env.uuid ++ ".pdf") bytes
             env.finalUrl),
           effs ++ [.settle, .renderPdf, .upload])
    else (.ok (navFailPdf nav.2), effs)

/-- Arguments of `convertToPdf` (`PdfArgs`; the `pdf` page options do not
influence control flow and are omitted). -/
structure PdfArgs where
  url : String
  viewportW : Option Nat
  viewportH : Option Nat
  waitUntil : Option Wait
  timeoutMs : Option Int

/-- `convertToPdf`: same boundary structure as `captureScreenshot`. -/
def convertToPdf (env : CaptureEnv) (sid : String) (args : PdfArgs) :
    Except JsErr PdfResultM × List Effect :=
  match normalizeUrl args.url with
  | none => (.ok (.err "Invalid URL" .BAD_URL), [])
  | some u0 =>
    match env.launch with
    | .error e => (.error e, [.launch])
    | .ok _ =>
      let want := args.waitUntil.getD .networkidle0
      match pdfBody env sid u0 want with
      | (.error e, effs) => (.ok (catchErrPdf e), [Effect.launch] ++ effs ++ [.closeBrowser])
      | (.ok r, effs) => (.ok r, [Effect.launch] ++ effs ++ [.closeBrowser])

/-- A capture oracle whose every external call succeeds (used by witnesses). -/
def captureEnvOk : CaptureEnv :=
  { launch := .ok (), pageSetup := .ok (), nav := fun _ => .ok,
    finalUrl := "https://example.com/", shot := .ok 2048, pdfRender := .ok 4096,
    upload := .ok (), uuid := "11111111-2222-3333-4444-555555555555" }

/-- A capture oracle whose browser launch throws (C1 counterexample). -/
def captureEnvLaunchFail : CaptureEnv :=
  { captureEnvOk with launch := .error ⟨"Browser launch failed"⟩ }

/-! ## getWeather (getWeather.ts)

The Open-Meteo responses are modelled at the type the source casts them to
(`OMGeoResponse`, `OMForecastResponse`); a JSON `null` array element is an
inner `none`.  JS numbers appearing in responses are `ℚ`; a daily temperature
field holds `none` where the source computes `NaN`
(`Number(tMaxs[i] ?? NaN)` with the element missing or null). -/

/-- One `results` entry of the geocoder response. -/
structure GeoEntry where
  latitude : ℚ
  longitude : ℚ
  name : String
  admin1 : Option String
  country : Option String

/-- The resolved place, as returned by `geocodeIfNeeded`. -/
structure GeoPlace where
  lat : ℚ
  lon : ℚ
  name : String
  region : Option String
  country : Option String
deriving DecidableEq, Repr

/-- The `daily` block of the forecast response (each array may be absent, and
each element may be `null`). -/
structure OMDailyM where
  time : Option (List String)
  temperature2mMax : Option (List (Option ℚ))
  temperature2mMin : Option (List (Option ℚ))
  precipitationProbabilityMax : Option (List (Option ℚ))
  precipitationSum : Option (List (Option ℚ))
  weathercode : Option (List (Option ℚ))

/-- The forecast response body. -/
structure OMRespM where
  timezone : Option String
  daily : Option OMDailyM

/-- Oracle for one `getWeather` run: the two `fetch` calls and the two
`r.json()` parses, each of which may throw (`Except.error`).  `geoFetch` is
the geocoder's `r.ok`; `fcFetch` is the forecast's `(r.ok, r.status)`. -/
structure WeatherEnv where
  geoFetch : Except JsErr Bool
  geoJson : Except JsErr (Option (List GeoEntry))
  fcFetch : Except JsErr (Bool × Nat)
  fcJson : Except JsErr OMRespM

/-- `WeatherArgs` (all fields optional; `days` is a JS number). -/
structure WeatherArgsM where
  location : Option String
  latitude : Option ℚ
  longitude : Option ℚ
  startDate : Option String
  endDate : Option String
  days : Option ℚ
  units : Option String

/-- One reshaped forecast day (`WeatherDay`).  `tMax`/`tMin`/`pop` are `none`
where the source holds `NaN`. -/
structure WDay where
  date : String
  wcode : ℚ
  tMax : Option ℚ
  tMin : Option ℚ
  precipMm : ℚ
  pop : Option ℚ
deriving DecidableEq, Repr

/-- The resolved place block of a successful `WeatherResult`. -/
structure WPlaceFull where
  name : String
  region : Option String
  country : Option String
  lat : ℚ
  lon : ℚ
  timezone : String
deriving DecidableEq, Repr

/-- `units` labels of a `WeatherResult`. -/
structure WUnits where
  temp : String
  precip : String
deriving DecidableEq, Repr

/-- `WeatherResult`: the success record or `{ ok: false, error }`. -/
inductive WeatherResultM where
  | ok (place : WPlaceFull) (units : WUnits) (daily : List WDay) (notes : String)
  | err (error : String)
deriving DecidableEq, Repr

/-- `geocodeIfNeeded`: explicit numeric coordinates skip geocoding; an empty
(trimmed) location yields `null`; a non-2xx geocoder response or an empty
`results` yields `null`; a thrown fetch/parse propagates. -/
def geocodeIfNeeded (env : WeatherEnv) (args : WeatherArgsM) :
    Except JsErr (Option GeoPlace) :=
  match args.latitude, args.longitude with
  | some la, some lo => .ok (some ⟨la, lo, args.location.getD "location", none, none⟩)
  | _, _ =>
    let q := jsTrim (args.location.getD "")
    if q = "" then .ok none
    else
      match env.geoFetch with
      | .error e => .error e
      | .ok false => .ok none
      | .ok true =>
        match env.geoJson with
        | .error e => .error e
        | .ok (some (top :: _)) =>
          .ok (some ⟨top.latitude, top.longitude, top.name, top.admin1, top.country⟩)
        | .ok _ => .ok none

/-- `asISODate`'s pattern `/^\d{4}-\d{2}-\d{2}$/`. -/
def isISODateFormat (s : String) : Bool :=
  match s.data with
  | [a, b, c, d, e, f, g, h, i, j] =>
    a.isDigit && b.isDigit && c.isDigit && d.isDigit && e == '-' &&
    f.isDigit && g.isDigit && h == '-' && i.isDigit && j.isDigit
  | _ => false

/-- `asISODate`. -/
def asISODate (s : Option String) : Option String :=
  match s with
  | none => none
  | some s => if isISODateFormat s then some s else none

/-- `unitLabels`: `imperial` gives `°F`/`in`, anything else `°C`/`mm`. -/
def unitLabels (units : Option String) : WUnits :=
  if units = some "imperial" then ⟨"°F", "in"⟩ else ⟨"°C", "mm"⟩

/-- `clamp(v, 1, 16)` applied to `days ?? 7` when no start/end window is given
(only influences the request URL; recorded for fidelity). -/
def clampDays (d : Option ℚ) : ℚ := min 16 (max 1 (d.getD 7))

/-- The try-block body of `getWeather`; a `.error` is a thrown exception. -/
def getWeatherBody (env : WeatherEnv) (args : WeatherArgsM) :
    Except JsErr WeatherResultM :=
  match geocodeIfNeeded env args with
  | .error e => .error e
  | .ok none => .ok (.err "Please provide a city/location I can find.")
  | .ok (some place) =>
    let start := asISODate args.startDate
    let endd := asISODate args.endDate
    match env.fcFetch with
    | .error e => .error e
    | .ok (false, status) => .ok (.err ("Weather API error (" ++ toString status ++ ")"))
    | .ok (true, _) =>
      match env.fcJson with
      | .error e => .error e
      | .ok j =>
        let dates := (j.daily.bind (·.time)).getD []
        let tMaxs := (j.daily.bind (·.temperature2mMax)).getD []
        let tMins := (j.daily.bind (·.temperature2mMin)).getD []
        let pops := (j.daily.bind (·.precipitationProbabilityMax)).getD []
        let precs := (j.daily.bind (·.precipitationSum)).getD []
        let codes := (j.daily.bind (·.weathercode)).getD []
        let n := dates.length
        let daily : List WDay := (List.range n).map (fun i =>
          { date := (dates.get? i).getD ""
            wcode := ((codes.get? i).getD none).getD 0
            tMax := (tMaxs.get? i).getD none
            tMin := (tMins.get? i).getD none
            precipMm := ((precs.get? i).getD none).getD 0
            pop := some (((pops.get? i).getD none).getD 0) })
        .ok (.ok
          ⟨place.name, place.region, place.country, place.lat, place.lon,
            j.timezone.getD "auto"⟩
          (unitLabels args.units) daily
          (match start, endd with
           | some s, some e => "Forecast " ++ s ++ " → " ++ e
           | _, _ => "Forecast next " ++ toString n ++ " day(s)"))

/-- `getWeather`: the whole body sits inside `try { … } catch (e) { return
{ ok: false, error: (e as Error).message || "Unknown error" } }`. -/
def getWeatherTop (env : WeatherEnv) (args : WeatherArgsM) :
    Except JsErr WeatherResultM :=
  match getWeatherBody env args with
  | .ok r => .ok r
  | .error e => .ok (.err (if e.msg = "" then "Unknown error" else e.msg))

/-! ## Deterministic forecast summary (`#streamSummary` in agent.ts) -/

/-- `Math.round`: halves round toward positive infinity. -/
def jsRound (q : ℚ) : ℤ := ⌊q + 1 / 2⌋

/-- The `weeklyHigh` update: `Number.isFinite(d.tMax) && d.tMax > weeklyHigh`
(starting from `-Infinity`, modelled by `none`). -/
def hiStep (acc : Option ℚ) (d : WDay) : Option ℚ :=
  match d.tMax with
  | some q =>
    match acc with
    | none => some q
    | some h => if h < q then some q else some h
  | none => acc

/-- The `weeklyLow` update (starting from `+Infinity`). -/
def loStep (acc : Option ℚ) (d : WDay) : Option ℚ :=
  match d.tMin with
  | some q =>
    match acc with
    | none => some q
    | some l => if q < l then some q else some l
  | none => acc

/-- The `maxPop`/`wetIdx` update: state is (maxPop, wetIdx, next index);
`maxPop` starts at `-1` and `wetIdx` at `-1` (modelled `none`); only a finite
`d.pop` strictly greater than the running maximum updates both. -/
def wetStep (st : ℚ × Option Nat × Nat) (d : WDay) : ℚ × Option Nat × Nat :=
  match d.pop with
  | some p =>
    if st.1 < p then (p, some st.2.2, st.2.2 + 1) else (st.1, st.2.1, st.2.2 + 1)
  | none => (st.1, st.2.1, st.2.2 + 1)

/-- The place block consumed by the summary. -/
structure WPlace where
  name : String
  region : Option String
  country : Option String
deriving DecidableEq, Repr

/-- Projection used when the controller hands the tool result to the summary. -/
def toWPlace (p : WPlaceFull) : WPlace := ⟨p.name, p.region, p.country⟩

/-- `[result.place.name, region, country].filter(Boolean).join(", ")`. -/
def placeNameStr (p : WPlace) : String :=
  String.intercalate ", "
    ((([some p.name, p.region, p.country].filterMap id)).filter (fun s => s ≠ ""))

/-- The three sentences built by `#streamSummary` for a non-empty forecast.
`fmtDate` models `new Date(iso + "T00:00:00").toLocaleDateString("en-US", …)`.
The computation runs over at most the first 7 days. -/
def streamSummaryParts (fmtDate : String → String) (place : WPlace)
    (unitT : String) (daily : List WDay) : List String :=
  let days := daily.take 7
  let hiQ := days.foldl hiStep none
  let loQ := days.foldl loStep none
  let wet := days.foldl wetStep (-1, none, 0)
  let hi : Option ℤ := hiQ.map jsRound
  let lo : Option ℤ := loQ.map jsRound
  let pop : Option ℤ := if 0 ≤ wet.1 then some (jsRound wet.1) else none
  let placeName := placeNameStr place
  let wetISO : String :=
    match wet.2.1 with
    | some i => ((days.get? i).map (·.date)).getD ""
    | none => ""
  let wetPretty : Option String := if wetISO = "" then none else some (fmtDate wetISO)
  let line1 :=
    match hi, lo with
    | some h, some l =>
      "Next week in " ++ placeName ++ ", expect highs around " ++ toString h ++
        unitT ++ " and lows near " ++ toString l ++ unitT ++ "."
    | some h, none =>
      "Next week in " ++ placeName ++ ", expect highs around " ++ toString h ++ unitT ++ "."
    | none, some l =>
      "Next week in " ++ placeName ++ ", expect lows near " ++ toString l ++ unitT ++ "."
    | none, none =>
      "Next week in " ++ placeName ++ ", temperatures vary through the week."
  let line2 :=
    match pop with
    | some p =>
      if 0 < p then
        match wetPretty with
        | some w => "Peak chance of precipitation is about " ++ toString p ++ "% on " ++ w ++ "."
        | none => "Peak chance of precipitation is about " ++ toString p ++ "%."
      else "Rain risk looks low overall."
    | none => "Rain risk looks low overall."
  let line3 :=
    match hi, lo with
    | some h, some l =>
      if (match pop with | some p => decide (40 ≤ p) | none => false) then
        "Pack layers and bring a small umbrella or rain jacket just in case."
      else if 10 ≤ h - l then
        "Pack layers (mornings/evenings cooler than afternoons)."
      else "Light layers should be fine for most of the week."
    | _, _ => "Pack flexible layers to handle changes through the week."
  [line1, line2, line3]

/-- Claim C3, spec side: the weekly high is the maximum of the finite daily
maximum temperatures. -/
def weeklyHighSpec (days : List WDay) : Option ℚ := (days.filterMap (·.tMax)).max?

/-- Claim C3, spec side: the weekly low is the minimum of the finite daily
minimum temperatures. -/
def weeklyLowSpec (days : List WDay) : Option ℚ := (days.filterMap (·.tMin)).min?

/-- Claim C3, spec side: the peak precipitation probability. -/
def peakPopSpec (days : List WDay) : Option ℚ := (days.filterMap (·.pop)).max?

/-- Claim C3, spec side: the date of the day of highest precipitation
probability, ties broken by first occurrence. -/
def wetDateSpec (days : List WDay) : String :=
  match peakPopSpec days with
  | some p =>
    match days.findIdx? (fun d => d.pop = some p) with
    | some i => ((days.get? i).map (·.date)).getD ""
    | none => ""
  | none => ""

/-- A single summary day for the C3 counterexample: the daily maximum
temperature is `NaN` (e.g. the API omitted `temperature_2m_max`), the minimum
is 20, and the precipitation probability is 80%. -/
def c3day : WDay :=
  { date := "2026-03-01", wcode := 0, tMax := none, tMin := some 20,
    precipMm := 0, pop := some 80 }

/-! ## Session controller (agent.ts `AIAgent`)

State mutation is modelled as a pure step: `AgentSim` carries the durable
`messages` table (rows in insertion order, which the source writes with
nondecreasing `ts`, so the `ORDER BY ts ASC` scan returns them as stored) and
the in-memory `State`.  All `Date.now()` readings inside one handler are
modelled by the single `now` parameter.  Protocol sends are collected in an
event list, external calls of the chat path in a call list, with their results
supplied by a per-turn oracle (`ChatEnv`). -/

/-- One chat line (`Msg`). -/
structure Msg where
  role : String
  content : String
  ts : Nat
deriving DecidableEq, Repr

/-- The agent's mirrored `State`. -/
structure AgState where
  model : String
  messages : List Msg
  createdAt : Nat
  expiresAt : Nat
deriving DecidableEq, Repr

/-- Durable rows plus in-memory state. -/
structure AgentSim where
  durable : List Msg
  state : AgState
deriving DecidableEq, Repr

/-- `const DAY = 86_400_000`. -/
def DAY : Nat := 86400000

/-- `DEFAULT_MODEL`. -/
def DEFAULT_MODEL : String := "@cf/meta/llama-4-scout-17b-16e-instruct"

/-- Protocol events sent to the client. -/
inductive Event where
  | ready (st : AgState)
  | delta (text : String)
  | done
  | cleared
  | tool (tool : String) (status : String) (message : Option String)
      (result : Option String)
deriving DecidableEq, Repr

/-- The planner arguments the controller reads (`args.location`); the full
argument object is forwarded to `getWeather` unchanged. -/
structure WArgsLite where
  location : Option String
deriving DecidableEq, Repr

/-- External calls made by the chat path. -/
inductive Call where
  | planner
  | weather (args : WArgsLite)
  | screenshot (url : String) (fullPage : Bool)
  | pdf (url : String)
  | summarize (tool : String)
  | aiStream
deriving DecidableEq, Repr

/-- `onConnect`: ensure the schema, load the durable log into state when the
in-memory message list is empty, and send `ready` with the (updated) state. -/
def onConnect (now : Nat) (a : AgentSim) : AgentSim × List Event :=
  let a' :=
    if a.state.messages.isEmpty then
      { a with state := { a.state with messages := a.durable, expiresAt := now + DAY } }
    else a
  (a', [Event.ready a'.state])

/-- The `reset` branch of `onMessage`: delete all durable rows, reset state
(`model: this.state.model || DEFAULT_MODEL`, fresh `createdAt`/`expiresAt`),
send `cleared`. -/
def onReset (now : Nat) (a : AgentSim) : AgentSim × List Event :=
  ({ durable := [],
     state :=
       { model := if a.state.model = "" then DEFAULT_MODEL else a.state.model,
         messages := [], createdAt := now, expiresAt := now + DAY } },
   [Event.cleared])

/-- The `model` branch of `onMessage` (`data.model` must be truthy). -/
def onModelMsg (now : Nat) (m : String) (a : AgentSim) : AgentSim × List Event :=
  if m = "" then (a, [])
  else ({ a with state := { a.state with model := m, expiresAt := now + DAY } }, [])

/-- `#saveAssistant`: insert the durable row and mirror it into state with a
TTL extension (no event is sent by this helper). -/
def saveAssistantM (now : Nat) (text : String) (a : AgentSim) : AgentSim :=
  let m : Msg := ⟨"assistant", text, now⟩
  { durable := a.durable ++ [m]
    state := { a.state with
                messages := a.state.messages ++ [m]
                expiresAt := now + DAY } }

/-- The user-message insert at the top of the chat branch. -/
def insertUserRow (now : Nat) (text : String) (a : AgentSim) : AgentSim :=
  let m : Msg := ⟨"user", text, now⟩
  { durable := a.durable ++ [m]
    state := { a.state with
                messages := a.state.messages ++ [m]
                expiresAt := now + DAY } }

/-- A persisted tool row. -/
def insertToolRow (now : Nat) (content : String) (a : AgentSim) : AgentSim :=
  let m : Msg := ⟨"tool", content, now⟩
  { durable := a.durable ++ [m]
    state := { a.state with
                messages := a.state.messages ++ [m]
                expiresAt := now + DAY } }

/-- `JSON.stringify({ type: "tool_result", tool, result })` where the
result's own JSON rendering is supplied by the oracle. -/
def jsonEnvelope (tool : String) (resultJson : String) : String :=
  "\x7b\"type\":\"tool_result\",\"tool\":\"" ++ tool ++ "\",\"result\":" ++
    resultJson ++ "\x7d"

/-- A capture-tool result as the controller consumes it: the `ok` flag, the
`error`/`code` fields of a failure, and the result's JSON rendering (used for
the persisted envelope and the `tool` events). -/
inductive ToolResM where
  | ok (json : String)
  | err (error : String) (code : String) (json : String)
deriving DecidableEq, Repr

/-- What `this.env.AI.run(model, {stream: true})` produced for the plain-chat
fallback: a throw, a plain string, a non-stream non-string value, or a byte
stream (decoded chunks) optionally followed by a mid-read error. -/
inductive StreamOutM where
  | errored
  | plain (s : String)
  | notStream
  | stream (chunks : List String) (readErr : Bool)

/-- Oracle for one chat turn: results of the planner call, the tool pipelines,
the outcome summaries, the fallback stream, the SSE JSON parses, the intent
regex matches and the URL-token extraction on this turn's text, and the
date formatter of the weather summary. -/
structure ChatEnv where
  planner : Option WArgsLite
  weather : WeatherResultM
  weatherJson : String
  ssMatch : Bool
  pdfMatch : Bool
  urlTok : Option String
  ssRes : ToolResM
  pdfRes : ToolResM
  ssSteps : List String
  pdfSteps : List String
  ssSummary : String
  pdfSummary : String
  aiStream : StreamOutM
  sseParse : String → SseParse
  fmtDate : String → String

/-- `#streamAssistant` at the controller level: the relay loop is
`streamAssistantRelay`; a non-stream result short-circuits (saving before the
terminal `done`); a throw yields the placeholder; the accumulated text is
persisted as one assistant message. -/
def streamAssistantM (env : ChatEnv) (now : Nat) (a : AgentSim) :
    AgentSim × List Event :=
  match env.aiStream with
  | .errored => (saveAssistantM now "_(stream error)_" a, [Event.done])
  | .plain s => (saveAssistantM now s a, [Event.done])
  | .notStream => (saveAssistantM now "[no response]" a, [Event.done])
  | .stream chunks readErr =>
    let r := streamAssistantRelay env.sseParse chunks
    let full := if readErr ∧ r.2 = "" then "_(stream error)_" else r.2
    (saveAssistantM now full a, r.1.map Event.delta ++ [Event.done])

/-- The weather-branch tail of the chat path (planner returned a getWeather
call): preamble, progress events, the `getWeather` call, then on success the
persisted tool row and the deterministic summary (`#streamSummary`). -/
def chatWeatherBranch (env : ChatEnv) (now : Nat) (args : WArgsLite)
    (a1 : AgentSim) : AgentSim × List Event × List Call :=
  let pre := "Sure — I’ll check the forecast for " ++
    (args.location.getD "that location") ++ " using getWeather…"
  let a2 := saveAssistantM now pre a1
  let ev0 := [Event.delta pre, Event.done,
    Event.tool "getWeather" "started" (some "Planning weather lookup…") none,
    Event.tool "getWeather" "step" (some "Fetching forecast from Open-Meteo…") none]
  match env.weather with
  | .err e =>
    (saveAssistantM now ("I couldn\x27t fetch the weather: " ++ e) a2,
     ev0 ++ [Event.tool "getWeather" "error" (some e) none],
     [Call.planner, Call.weather args])
  | .ok place units daily _notes =>
    let a3 := insertToolRow now (jsonEnvelope "getWeather" env.weatherJson) a2
    let evDone := ev0 ++
      [Event.tool "getWeather" "done" (some "Forecast ready") (some env.weatherJson)]
    if (daily.take 7).isEmpty then
      (saveAssistantM now "I couldn\x27t find a daily forecast for that range." a3,
       evDone, [Call.planner, Call.weather args])
    else
      let summary := String.intercalate " "
        (streamSummaryParts env.fmtDate (toWPlace place) units.temp daily)
      (saveAssistantM now summary a3,
       evDone ++ [Event.delta summary, Event.done],
       [Call.planner, Call.weather args])

/-- The screenshot branch: URL-ish token extraction (the oracle's `urlTok`),
with the hard-coded `https://example.com` default, then the pipeline call,
progress relay, persistence and the outcome summary. -/
def chatScreenshotBranch (env : ChatEnv) (now : Nat) (a1 : AgentSim) :
    AgentSim × List Event × List Call :=
  let target := env.urlTok.getD ""
  let argUrl := if target = "" then "https://example.com" else target
  let pre := "Okay — I’ll capture a full-page screenshot of " ++
    (if target = "" then "that page" else target) ++ "…"
  let a2 := saveAssistantM now pre a1
  let evPre := [Event.delta pre, Event.done,
    Event.tool "screenshot" "started" (some "Planning capture…") none] ++
    env.ssSteps.map (fun m => Event.tool "screenshot" "step" (some m) none)
  let calls := [Call.planner, Call.screenshot argUrl true, Call.summarize "screenshot"]
  match env.ssRes with
  | .err e _code json =>
    (saveAssistantM now env.ssSummary a2,
     evPre ++ [Event.tool "screenshot" "error" (some e) (some json),
       Event.delta env.ssSummary, Event.done],
     calls)
  | .ok json =>
    let a3 := insertToolRow now (jsonEnvelope "screenshot" json) a2
    (saveAssistantM now env.ssSummary a3,
     evPre ++ [Event.tool "screenshot" "done" (some "Screenshot ready") (some json),
       Event.delta env.ssSummary, Event.done],
     calls)

/-- The PDF branch (same structure; tool name "convertToPdf"). -/
def chatPdfBranch (env : ChatEnv) (now : Nat) (a1 : AgentSim) :
    AgentSim × List Event × List Call :=
  let target := env.urlTok.getD ""
  let argUrl := if target = "" then "https://example.com" else target
  let pre := "Got it — I’ll render a PDF of " ++
    (if target = "" then "that page" else target) ++ "…"
  let a2 := saveAssistantM now pre a1
  let evPre := [Event.delta pre, Event.done,
    Event.tool "convertToPdf" "started" (some "Planning PDF…") none] ++
    env.pdfSteps.map (fun m => Event.tool "convertToPdf" "step" (some m) none)
  let calls := [Call.planner, Call.pdf argUrl, Call.summarize "convertToPdf"]
  match env.pdfRes with
  | .err e _code json =>
    (saveAssistantM now env.pdfSummary a2,
     evPre ++ [Event.tool "convertToPdf" "error" (some e) (some json),
       Event.delta env.pdfSummary, Event.done],
     calls)
  | .ok json =>
    let a3 := insertToolRow now (jsonEnvelope "convertToPdf" json) a2
    (saveAssistantM now env.pdfSummary a3,
     evPre ++ [Event.tool "convertToPdf" "done" (some "PDF ready") (some json),
       Event.delta env.pdfSummary, Event.done],
     calls)

/-- The `chat` branch: trimmed-empty text is a silent no-op BEFORE any insert
or event; otherwise the user message is persisted and the deterministic
cascade runs: planner, screenshot regex, PDF regex, plain streaming chat. -/
def onChat (env : ChatEnv) (now : Nat) (text : String) (a : AgentSim) :
    AgentSim × List Event × List Call :=
  let userText := jsTrim text
  if userText = "" then (a, [], [])
  else
    let a1 := insertUserRow now userText a
    match env.planner with
    | some args => chatWeatherBranch env now args a1
    | none =>
      if env.ssMatch then chatScreenshotBranch env now a1
      else if env.pdfMatch then chatPdfBranch env now a1
      else
        let r := streamAssistantM env now a1
        (r.1, r.2, [Call.planner, Call.aiStream])

/-- Inbound frames after the source's decode: a non-string frame, a JSON parse
failure and a missing `type` are all silent no-ops; an unknown `type` falls
through every branch. -/
inductive InMsg where
  | notText
  | malformed
  | noType
  | unknownType
  | modelMsg (m : String)
  | reset
  | chat (text : String)

/-- `onMessage`. -/
def onMessage (env : ChatEnv) (now : Nat) (msg : InMsg) (a : AgentSim) :
    AgentSim × List Event × List Call :=
  match msg with
  | .notText | .malformed | .noType | .unknownType => (a, [], [])
  | .modelMsg m => let r := onModelMsg now m a; (r.1, r.2, [])
  | .reset => let r := onReset now a; (r.1, r.2, [])
  | .chat t => onChat env now t a

/-- The filter building the model-facing history (`isUserOrAssistant`), and
the bounded history itself — recorded for fidelity; the planner and stream
oracles absorb its consumption. -/
def historyOf (a : AgentSim) : List (String × String) :=
  (((a.state.messages.reverse.take 40).reverse).filter
      (fun m => m.role = "user" ∨ m.role = "assistant")).map
    (fun m => (m.role, m.content))

/-- A concrete chat oracle with every external outcome fixed (for witnesses). -/
def chatEnvW : ChatEnv :=
  { planner := none, weather := .err "unused", weatherJson := "null",
    ssMatch := false, pdfMatch := false, urlTok := none,
    ssRes := .ok "\x7b\"ok\":true\x7d", pdfRes := .ok "\x7b\"ok\":true\x7d",
    ssSteps := [], pdfSteps := [], ssSummary := "Done.", pdfSummary := "Done.",
    aiStream := .plain "hello", sseParse := fun _ => .fail,
    fmtDate := fun s => s }

/-- An empty agent at time 0 (for witnesses). -/
def agentSim0 : AgentSim :=
  { durable := []
    state := { model := DEFAULT_MODEL
               messages := []
               createdAt := 0
               expiresAt := DAY } }

/-! ## Remaining claim-side definitions and concrete instances -/

/-- `(l.filterMap pop)` folded with `max` from `m0` — the value the source's
`maxPop` fold computes (its strict-`>` update keeps the same running value). -/
def popMaxFrom (m0 : ℚ) (l : List WDay) : ℚ :=
  (l.filterMap (·.pop)).foldl max m0

/-- Claim C3, spec side: the rounded weekly high of the first 7 days. -/
def hiRounded (daily : List WDay) : Option ℤ :=
  (weeklyHighSpec (daily.take 7)).map jsRound

/-- Claim C3, spec side: the rounded weekly low of the first 7 days. -/
def loRounded (daily : List WDay) : Option ℤ :=
  (weeklyLowSpec (daily.take 7)).map jsRound

/-- Claim C3, spec side: the displayed peak precipitation probability —
present exactly when the peak over the first 7 days is a non-negative
number. -/
def popRounded (daily : List WDay) : Option ℤ :=
  match peakPopSpec (daily.take 7) with
  | some p => if 0 ≤ p then some (jsRound p) else none
  | none => none

/-- Claim C3, sentence (1): the high/low statement with its fallbacks. -/
def specTempLine (place : WPlace) (unitT : String) (daily : List WDay) : String :=
  match hiRounded daily, loRounded daily with
  | some h, some l =>
    "Next week in " ++ placeNameStr place ++ ", expect highs around " ++
      toString h ++ unitT ++ " and lows near " ++ toString l ++ unitT ++ "."
  | some h, none =>
    "Next week in " ++ placeNameStr place ++ ", expect highs around " ++
      toString h ++ unitT ++ "."
  | none, some l =>
    "Next week in " ++ placeNameStr place ++ ", expect lows near " ++
      toString l ++ unitT ++ "."
  | none, none =>
    "Next week in " ++ placeNameStr place ++ ", temperatures vary through the week."

/-- Claim C3, sentence (2): the precipitation statement, naming the day of
highest probability (first occurrence) when the displayed peak is positive. -/
def specPrecipLine (fmtDate : String → String) (daily : List WDay) : String :=
  match popRounded daily with
  | some p =>
    if 0 < p then
      if wetDateSpec (daily.take 7) = "" then
        "Peak chance of precipitation is about " ++ toString p ++ "%."
      else
        "Peak chance of precipitation is about " ++ toString p ++ "% on " ++
          fmtDate (wetDateSpec (daily.take 7)) ++ "."
    else "Rain risk looks low overall."
  | none => "Rain risk looks low overall."

/-- Claim C3 amended, sentence (3): when both the weekly high and low are
finite, umbrella advice for a displayed peak ≥ 40, else layering advice for a
high−low span ≥ 10, else light layers; when either temperature aggregate is
missing, a flexible-layers recommendation regardless of precipitation. -/
def specPackLine (daily : List WDay) : String :=
  match hiRounded daily, loRounded daily with
  | some h, some l =>
    if (match popRounded daily with | some p => decide (40 ≤ p) | none => false) then
      "Pack layers and bring a small umbrella or rain jacket just in case."
    else if 10 ≤ h - l then
      "Pack layers (mornings/evenings cooler than afternoons)."
    else "Light layers should be fine for most of the week."
  | _, _ => "Pack flexible layers to handle changes through the week."

/-- A valid screenshot argument record (for witnesses). -/
def shotArgsEx : ShotArgs :=
  { url := "https://example.com", fullPage := none, viewportW := none,
    viewportH := none, waitUntil := none, timeoutMs := none }

/-- The C4 counterexample input: a URL with a non-`http(s)` scheme. -/
def shotArgsFtp : ShotArgs :=
  { shotArgsEx with url := "ftp://example.com" }

/-- A valid PDF argument record (for witnesses). -/
def pdfArgsEx : PdfArgs :=
  { url := "https://example.com", viewportW := none, viewportH := none,
    waitUntil := none, timeoutMs := none }

/-- The C4 counterexample input, for the PDF pipeline. -/
def pdfArgsFtp : PdfArgs :=
  { pdfArgsEx with url := "ftp://example.com" }

/-- A capture oracle whose every navigation attempt times out. -/
def captureEnvNavFail : CaptureEnv :=
  { captureEnvOk with nav := fun _ => .timeout }

/-- A weather oracle whose every external call succeeds (for witnesses). -/
def weatherEnvOk : WeatherEnv :=
  { geoFetch := .ok true
    geoJson := .ok (some [⟨45.5, -73.5, "Montreal", some "Quebec", some "Canada"⟩])
    fcFetch := .ok (true, 200)
    fcJson := .ok
      { timezone := some "America/Toronto"
        daily := some
          { time := some ["2026-03-02", "2026-03-03"]
            temperature2mMax := some [some 30, some 28]
            temperature2mMin := some [some 20, some 18]
            precipitationProbabilityMax := some [some 10, some 75]
            precipitationSum := some [some 0, some 2]
            weathercode := some [some 1, some 61] } } }

/-- Weather arguments for the witness run. -/
def weatherArgsEx : WeatherArgsM :=
  { location := some "Montreal", latitude := none, longitude := none,
    startDate := none, endDate := none, days := some 2, units := none }

/-- Chat oracle variants for the C9 witness. -/
def chatEnvSS : ChatEnv := { chatEnvW with ssMatch := true }

/-- Chat oracle for the C9 PDF case. -/
def chatEnvPdf : ChatEnv := { chatEnvW with pdfMatch := true }

/-- The C6 counterexample stream: a complete frame carrying the `[DONE]`
sentinel, followed by a complete frame carrying a further payload. -/
def c6chunks : List String := ["data: [DONE]\n\ndata: hello\n\n"]

/-- `JSON.parse` behaviour on the C6 payloads: `"hello"` is not JSON, so the
parse throws. -/
def sseFailParse : String → SseParse := fun _ => .fail

/-- The spec's own example forecast (`[{tMax:30,tMin:20,pop:10},
{tMax:28,tMin:18,pop:75}]`), used as the C3 witness input. -/
def specDays : List WDay :=
  [{ date := "2026-03-02", wcode := 1, tMax := some 30, tMin := some 20,
     precipMm := 0, pop := some 10 },
   { date := "2026-03-03", wcode := 61, tMax := some 28, tMin := some 18,
     precipMm := 2, pop := some 75 }]

/-- The C3 counterexample place. -/
def c3place : WPlace := ⟨"Sample", none, none⟩

/-- The normalized witness URL. -/
def u0ex : UrlModel := ⟨"https", "example.com", "", ""⟩

/-! # Theorems -/

/-- C7: after processing a reset event the durable message log is empty, and a
subsequent `onConnect` for the same session emits a `ready` event whose state
carries the empty message list. -/
theorem reset_roundtrip_connect (env : ChatEnv) (now nowc : Nat) (a : AgentSim) :
    (onMessage env now .reset a).1.durable = [] ∧
    ∃ st, (onConnect nowc (onMessage env now .reset a).1).2 = [Event.ready st] ∧
      st.messages = [] :=
  ⟨rfl, ⟨_, rfl, rfl⟩⟩

/-- C10: processing a reset event preserves the selected model identifier
(the default model constant when it was unset, i.e. falsy), clears the
messages, and refreshes `createdAt`/`expiresAt`. -/
theorem reset_preserves_model (env : ChatEnv) (now : Nat) (a : AgentSim) :
    (onMessage env now .reset a).1.state.model =
      (if a.state.model = "" then DEFAULT_MODEL else a.state.model) ∧
    (onMessage env now .reset a).1.state.messages = [] ∧
    (onMessage env now .reset a).1.state.createdAt = now ∧
    (onMessage env now .reset a).1.state.expiresAt = now + DAY :=
  ⟨rfl, rfl, rfl, rfl⟩

/-- C8: a chat event whose text is empty or whitespace-only is a silent
no-op — the durable log and the in-memory state are unchanged and no event and
no external call happens. -/
theorem blank_chat_noop (env : ChatEnv) (now : Nat) (text : String)
    (a : AgentSim) (h : jsTrim text = "") :
    onMessage env now (.chat text) a = (a, [], []) := by
  simp [onMessage, onChat, h]

/-- Witness for `blank_chat_noop` at the whitespace-only text `"   "`. -/
theorem blank_chat_noop_witness :
    jsTrim "   " = "" ∧
    onMessage chatEnvW 0 (.chat "   ") agentSim0 = (agentSim0, [], []) :=
  ⟨by decide, blank_chat_noop chatEnvW 0 "   " agentSim0 (by decide)⟩

/-- C9: a chat text that triggers the screenshot (resp. PDF) intent but
contains no URL-like token still invokes the corresponding capture pipeline,
with the hard-coded default target `https://example.com`. -/
theorem capture_default_url (env : ChatEnv) (now : Nat) (text : String)
    (a : AgentSim) (ht : jsTrim text ≠ "") (hp : env.planner = none)
    (hu : env.urlTok = none) :
    (env.ssMatch = true →
      Call.screenshot "https://example.com" true ∈ (onChat env now text a).2.2) ∧
    (env.ssMatch = false → env.pdfMatch = true →
      Call.pdf "https://example.com" ∈ (onChat env now text a).2.2) := by
  constructor
  · intro hss
    rcases hr : env.ssRes with json | ⟨e, c, j⟩ <;>
      simp [onChat, chatScreenshotBranch, ht, hp, hu, hss, hr]
  · intro hss hpdf
    rcases hr : env.pdfRes with json | ⟨e, c, j⟩ <;>
      simp [onChat, chatPdfBranch, ht, hp, hu, hss, hpdf, hr]

/-- Witness for `capture_default_url`: both intents, on texts with no
URL-like token. -/
theorem capture_default_url_witness :
    jsTrim "take a screenshot" ≠ "" ∧
    Call.screenshot "https://example.com" true ∈
      (onChat chatEnvSS 0 "take a screenshot" agentSim0).2.2 ∧
    Call.pdf "https://example.com" ∈
      (onChat chatEnvPdf 0 "save it as pdf" agentSim0).2.2 :=
  ⟨by decide,
   (capture_default_url chatEnvSS 0 "take a screenshot" agentSim0
      (by decide) rfl rfl).1 rfl,
   (capture_default_url chatEnvPdf 0 "save it as pdf" agentSim0
      (by decide) rfl rfl).2 rfl rfl⟩

/-- C1 (amended): `getWeather` never lets an exception escape — its whole body
is inside the try block, so every failure becomes the `ok:false` variant.  The
two capture pipelines convert every failure arising after the browser launch,
but `puppeteer.launch` itself sits BEFORE their try block, so the amended
guarantee is conditional on the launch succeeding
(`launch_throw_counterexample` shows a launch failure escaping). -/
theorem pipelines_no_throw_amended :
    (∀ (wenv : WeatherEnv) (args : WeatherArgsM),
      ∃ r, getWeatherTop wenv args = .ok r) ∧
    (∀ (env : CaptureEnv) (sid : String) (args : ShotArgs),
      env.launch = .ok () → ∃ r, (captureScreenshot env sid args).1 = .ok r) ∧
    (∀ (env : CaptureEnv) (sid : String) (args : PdfArgs),
      env.launch = .ok () → ∃ r, (convertToPdf env sid args).1 = .ok r) := by
  refine ⟨?_, ?_, ?_⟩
  · intro wenv args
    unfold getWeatherTop
    cases getWeatherBody wenv args with
    | ok r => exact ⟨r, rfl⟩
    | error e => exact ⟨_, rfl⟩
  · intro env sid args hl
    cases hn : normalizeUrl args.url with
    | none => exact ⟨.err "Invalid URL" .BAD_URL, by simp [captureScreenshot, hn]⟩
    | some u0 =>
      rcases hb : screenshotBody env sid u0 (args.waitUntil.getD .networkidle0)
          (args.viewportW.getD 1280) (args.viewportH.getD 800) with ⟨res, effs⟩
      cases res with
      | ok r => exact ⟨r, by simp [captureScreenshot, hn, hl, hb]⟩
      | error e => exact ⟨catchErrShot e, by simp [captureScreenshot, hn, hl, hb]⟩
  · intro env sid args hl
    cases hn : normalizeUrl args.url with
    | none => exact ⟨.err "Invalid URL" .BAD_URL, by simp [convertToPdf, hn]⟩
    | some u0 =>
      rcases hb : pdfBody env sid u0 (args.waitUntil.getD .networkidle0)
          with ⟨res, effs⟩
      cases res with
      | ok r => exact ⟨r, by simp [convertToPdf, hn, hl, hb]⟩
      | error e => exact ⟨catchErrPdf e, by simp [convertToPdf, hn, hl, hb]⟩

/-- Counterexample to C1 as stated: with a valid URL and a throwing
`puppeteer.launch`, BOTH capture pipelines re-raise the launch exception
instead of returning an `ok:false` record — the exception crosses the
pipeline boundary. -/
theorem launch_throw_counterexample :
    (captureScreenshot captureEnvLaunchFail "sid" shotArgsEx).1 =
      .error ⟨"Browser launch failed"⟩ ∧
    (convertToPdf captureEnvLaunchFail "sid" pdfArgsEx).1 =
      .error ⟨"Browser launch failed"⟩ :=
  ⟨rfl, rfl⟩

/-- Witness for `pipelines_no_throw_amended` on concrete all-succeeding
oracles. -/
theorem pipelines_no_throw_witness :
    captureEnvOk.launch = .ok () ∧
    (∃ r, (captureScreenshot captureEnvOk "sid" shotArgsEx).1 = .ok r) ∧
    (∃ r, (convertToPdf captureEnvOk "sid" pdfArgsEx).1 = .ok r) ∧
    (∃ r, getWeatherTop weatherEnvOk weatherArgsEx = .ok r) :=
  ⟨rfl,
   pipelines_no_throw_amended.2.1 captureEnvOk "sid" shotArgsEx rfl,
   pipelines_no_throw_amended.2.2 captureEnvOk "sid" pdfArgsEx rfl,
   pipelines_no_throw_amended.1 weatherEnvOk weatherArgsEx⟩

/-- Helper: `mkAuthority` only ever returns a record with the given scheme. -/
theorem mkAuthority_scheme (sch : String) (hostCs portCs rest : List Char)
    (u : UrlModel) (h : mkAuthority sch hostCs portCs rest = some u) :
    u.scheme = sch := by
  unfold mkAuthority at h
  split at h
  · exact Option.noConfusion h
  · split at h
    · exact Option.noConfusion h
    · split at h
      · exact Option.noConfusion h
      · rw [← Option.some.inj h]

/-- Helper: `parseAuthority` only ever returns the given scheme. -/
theorem parseAuthority_scheme (sch : String) (cs : List Char) (u : UrlModel)
    (h : parseAuthority sch cs = some u) : u.scheme = sch :=
  mkAuthority_scheme sch _ _ _ u h

/-- Helper: parsing an `https://`-prefixed string always enters the special
`https` authority path. -/
theorem jsNewURL_https (raw : String) :
    jsNewURL ("https://" ++ raw) =
      parseAuthority "https" (raw.data.dropWhile (fun c => c == '/' || c == '\\')) := by
  have hd : ("https://" ++ raw).data
      = 'h' :: 't' :: 't' :: 'p' :: 's' :: ':' :: '/' :: '/' :: raw.data := by
    rw [String.data_append]; rfl
  simp only [jsNewURL, hd]
  simp +decide [List.takeWhile_cons]
  rw [show jsToLower "https" = "https" from by decide]

/-- Helper: a successful parse of an `https://`-prefixed string has scheme
`https` (so the source's post-prefix protocol check can never fire). -/
theorem jsNewURL_https_scheme (raw : String) (u : UrlModel)
    (h : jsNewURL ("https://" ++ raw) = some u) : u.scheme = "https" := by
  rw [jsNewURL_https] at h
  exact parseAuthority_scheme _ _ _ h

/-- Helper: `normalizeUrl` agrees with the amended claim-side description. -/
theorem normalize_eq_amended (input : String) :
    normalizeUrl input = amendedNormalizeUrl input := by
  unfold normalizeUrl amendedNormalizeUrl
  by_cases h0 : jsTrim input = ""
  · rw [h0]; decide
  · cases hj : jsNewURL (jsTrim input) with
    | some u =>
      by_cases h1 : u.scheme = "http" <;> by_cases h2 : u.scheme = "https" <;>
        simp [h0, hj, h1, h2]
    | none =>
      cases hp : jsNewURL ("https://" ++ jsTrim input) with
      | none => simp [h0, hj, hp]
      | some u => simp [h0, hj, hp, jsNewURL_https_scheme _ _ hp]

/-- C4 (amended): the capture tools' URL normalization accepts a trimmed input
that parses as an absolute `http`/`https` URL; an input that parses with ANY
OTHER scheme is rejected outright (no `https://` prefixing is attempted for
it); only an input that does not parse at all gets the `https://` prefix
attempt, accepted exactly when it parses; and a normalization failure makes
the pipeline return `BAD_URL` having performed no effect — in particular
before any browser session is opened. -/
theorem normalize_url_amended :
    (∀ input : String, normalizeUrl input = amendedNormalizeUrl input) ∧
    (∀ (env : CaptureEnv) (sid : String) (args : ShotArgs),
      normalizeUrl args.url = none →
      captureScreenshot env sid args = (.ok (.err "Invalid URL" .BAD_URL), [])) ∧
    (∀ (env : CaptureEnv) (sid : String) (args : PdfArgs),
      normalizeUrl args.url = none →
      convertToPdf env sid args = (.ok (.err "Invalid URL" .BAD_URL), [])) := by
  refine ⟨normalize_eq_amended, ?_, ?_⟩
  · intro env sid args h
    simp [captureScreenshot, h]
  · intro env sid args h
    simp [convertToPdf, h]

/-- Counterexample to C4 as stated: `"ftp://example.com"` parses as an
absolute URL with scheme `ftp`, and its `https://`-prefixed form
`"https://ftp://example.com"` parses too (host `ftp`, empty port, path
`//example.com`), so the claim's normalization accepts it — but the code
rejects it with `BAD_URL` without ever attempting the prefix. -/
theorem normalize_url_counterexample :
    claimNormalizeUrl shotArgsFtp.url = some ⟨"https", "ftp", "", "//example.com"⟩ ∧
    normalizeUrl shotArgsFtp.url = none ∧
    (captureScreenshot captureEnvOk "sid" shotArgsFtp).1 =
      .ok (.err "Invalid URL" .BAD_URL) :=
  ⟨by decide, by decide, rfl⟩

/-- Witness for `normalize_url_amended` at concrete inputs. -/
theorem normalize_url_witness :
    normalizeUrl "example.com" = amendedNormalizeUrl "example.com" ∧
    normalizeUrl shotArgsFtp.url = none ∧
    captureScreenshot captureEnvOk "sid" shotArgsFtp =
      (.ok (.err "Invalid URL" .BAD_URL), []) ∧
    convertToPdf captureEnvOk "sid" pdfArgsFtp =
      (.ok (.err "Invalid URL" .BAD_URL), []) :=
  ⟨normalize_url_amended.1 "example.com",
   by decide,
   normalize_url_amended.2.1 captureEnvOk "sid" shotArgsFtp (by decide),
   normalize_url_amended.2.2 captureEnvOk "sid" pdfArgsFtp (by decide)⟩

/-- Helper: the source ladder equals the amended plan interpreter. -/
theorem ladder_eq_plan (env : NavEnv) (want : Wait) (sw : Bool) :
    runLadder env want sw = runPlan env sw (ladderPlanSteps want) [] .fail := by
  cases sw <;>
  rcases h0 : env 0 <;> rcases h1 : env 1 <;> rcases h2 : env 2 <;>
  rcases h3 : env 3 <;> rcases h4 : env 4 <;>
  simp [runLadder, runPlan, ladderPlanSteps, tryGoM, h0, h1, h2, h3, h4]

/-- Helper: a plan run started in the success state performs nothing. -/
theorem runPlan_ok (env : NavEnv) (sw : Bool) :
    ∀ (steps : List PlanStep) (tr : List NavAttempt),
      runPlan env sw steps tr .ok = (tr, .ok) := by
  intro steps tr
  cases steps with
  | nil => rfl
  | cons st rest => simp [runPlan]

/-- Helper: a plan run either performs nothing or its final outcome is the
outcome of the last recorded attempt. -/
theorem runPlan_last (env : NavEnv) (sw : Bool) :
    ∀ (steps : List PlanStep) (tr : List NavAttempt) (cur : NavOutcome),
      runPlan env sw steps tr cur = (tr, cur) ∨
      ∃ a, (runPlan env sw steps tr cur).1.getLast? = some a ∧
        a.outcome = (runPlan env sw steps tr cur).2 := by
  intro steps
  induction steps with
  | nil => intro tr cur; exact Or.inl rfl
  | cons st rest ih =>
    intro tr cur
    by_cases h1 : cur = .ok
    · exact Or.inl (by simp [runPlan, h1])
    · by_cases h2 : st.www ∧ sw
      · have := ih tr cur
        simpa [runPlan, h1, h2] using this
      · by_cases h3 : st.onlyTimeout ∧ cur ≠ .timeout
        · have := ih tr cur
          simpa [runPlan, h1, h2, h3] using this
        · have hstep : runPlan env sw (st :: rest) tr cur =
              runPlan env sw rest (tr ++ [⟨st.www, st.w, env tr.length⟩])
                (env tr.length) := by
            simp [runPlan, h1, h2, h3, tryGoM]
          rcases ih (tr ++ [⟨st.www, st.w, env tr.length⟩]) (env tr.length) with
            h | ⟨a, ha, hout⟩
          · refine Or.inr ⟨⟨st.www, st.w, env tr.length⟩, ?_, ?_⟩
            · rw [hstep, h]; simp
            · rw [hstep, h]
          · exact Or.inr ⟨a, by rw [hstep]; exact ha, by rw [hstep]; exact hout⟩

/-- Helper: a plan run succeeds exactly when one of its recorded attempts
succeeded (so an intermediate failure can never be the final outcome of a run
with a successful attempt). -/
theorem runPlan_ok_iff (env : NavEnv) (sw : Bool) :
    ∀ (steps : List PlanStep) (tr : List NavAttempt) (cur : NavOutcome),
      cur ≠ .ok → (∀ a ∈ tr, a.outcome ≠ .ok) →
      ((runPlan env sw steps tr cur).2 = .ok ↔
        ∃ a ∈ (runPlan env sw steps tr cur).1, a.outcome = .ok) := by
  intro steps
  induction steps with
  | nil =>
    intro tr cur hc htr
    simp only [runPlan]
    constructor
    · intro h; exact absurd h hc
    · rintro ⟨a, ha, hout⟩; exact absurd hout (htr a ha)
  | cons st rest ih =>
    intro tr cur hc htr
    by_cases h2 : st.www ∧ sw
    · simpa [runPlan, hc, h2] using ih tr cur hc htr
    · by_cases h3 : st.onlyTimeout ∧ cur ≠ .timeout
      · simpa [runPlan, hc, h2, h3] using ih tr cur hc htr
      · have hstep : runPlan env sw (st :: rest) tr cur =
            runPlan env sw rest (tr ++ [⟨st.www, st.w, env tr.length⟩])
              (env tr.length) := by
          simp [runPlan, hc, h2, h3, tryGoM]
        rw [hstep]
        by_cases ho : env tr.length = .ok
        · rw [ho, runPlan_ok]
          constructor
          · intro _
            exact ⟨⟨st.www, st.w, .ok⟩, by simp, rfl⟩
          · intro _; rfl
        · refine ih _ _ ho ?_
          intro a ha
          rcases List.mem_append.mp ha with h | h
          · exact htr a h
          · simp at h; rw [h]; simpa using ho

/-- Helper: the ladder's final outcome is the outcome of its last attempt
(and at least one attempt is always made). -/
theorem runLadder_last (env : NavEnv) (want : Wait) (sw : Bool) :
    ∃ a, (runLadder env want sw).1.getLast? = some a ∧
      a.outcome = (runLadder env want sw).2 := by
  rw [ladder_eq_plan]
  have hstep : runPlan env sw (ladderPlanSteps want) [] .fail =
      runPlan env sw ((ladderPlanSteps want).tail) [⟨false, want, env 0⟩]
        (env 0) := by
    simp [ladderPlanSteps, runPlan, tryGoM]
  rcases runPlan_last env sw ((ladderPlanSteps want).tail) [⟨false, want, env 0⟩]
    (env 0) with h | ⟨a, ha, hout⟩
  · rw [hstep, h]
    exact ⟨⟨false, want, env 0⟩, by simp, rfl⟩
  · rw [hstep]
    exact ⟨a, ha, hout⟩

/-- Helper: the ladder succeeds exactly when one of its attempts succeeded. -/
theorem runLadder_ok_iff (env : NavEnv) (want : Wait) (sw : Bool) :
    ((runLadder env want sw).2 = .ok ↔
      ∃ a ∈ (runLadder env want sw).1, a.outcome = .ok) := by
  rw [ladder_eq_plan]
  exact runPlan_ok_iff env sw _ [] .fail (by simp) (by simp)

/-- Helper: how `captureScreenshot` consumes the ladder's outcome: failure is
classified `NAV_TIMEOUT`/`NAV_FAIL` by the last outcome and the capture step
never runs; success always proceeds to the capture step. -/
theorem screenshot_nav_outcome (env : CaptureEnv) (sid : String)
    (args : ShotArgs) (u0 : UrlModel) (hl : env.launch = .ok ())
    (hps : env.pageSetup = .ok ()) (hn : normalizeUrl args.url = some u0) :
    ((runLadder env.nav (args.waitUntil.getD .networkidle0)
        (jsStartsWith u0.host "www.")).2 ≠ .ok →
      (captureScreenshot env sid args).1 =
        .ok (navFailShot (runLadder env.nav (args.waitUntil.getD .networkidle0)
          (jsStartsWith u0.host "www.")).2) ∧
      Effect.captureShot ∉ (captureScreenshot env sid args).2) ∧
    ((runLadder env.nav (args.waitUntil.getD .networkidle0)
        (jsStartsWith u0.host "www.")).2 = .ok →
      Effect.captureShot ∈ (captureScreenshot env sid args).2) := by
  rcases hnav : runLadder env.nav (args.waitUntil.getD .networkidle0)
    (jsStartsWith u0.host "www.") with ⟨tr, out⟩
  constructor
  · intro hne
    simp only at hne
    constructor
    · simp [captureScreenshot, hn, hl, screenshotBody, hps, hnav, hne]
    · simp [captureScreenshot, hn, hl, screenshotBody, hps, hnav, hne]
  · intro hok
    simp only at hok
    subst hok
    rcases hsh : env.shot with e | bytes
    · simp [captureScreenshot, hn, hl, screenshotBody, hps, hnav, hsh]
    · rcases hup : env.upload with e | u
      · simp [captureScreenshot, hn, hl, screenshotBody, hps, hnav, hsh, hup]
      · simp [captureScreenshot, hn, hl, screenshotBody, hps, hnav, hsh, hup]

/-- Helper: the same for `convertToPdf` and its render step. -/
theorem pdf_nav_outcome (env : CaptureEnv) (sid : String)
    (args : PdfArgs) (u0 : UrlModel) (hl : env.launch = .ok ())
    (hps : env.pageSetup = .ok ()) (hn : normalizeUrl args.url = some u0) :
    ((runLadder env.nav (args.waitUntil.getD .networkidle0)
        (jsStartsWith u0.host "www.")).2 ≠ .ok →
      (convertToPdf env sid args).1 =
        .ok (navFailPdf (runLadder env.nav (args.waitUntil.getD .networkidle0)
          (jsStartsWith u0.host "www.")).2) ∧
      Effect.renderPdf ∉ (convertToPdf env sid args).2) ∧
    ((runLadder env.nav (args.waitUntil.getD .networkidle0)
        (jsStartsWith u0.host "www.")).2 = .ok →
      Effect.renderPdf ∈ (convertToPdf env sid args).2) := by
  rcases hnav : runLadder env.nav (args.waitUntil.getD .networkidle0)
    (jsStartsWith u0.host "www.") with ⟨tr, out⟩
  constructor
  · intro hne
    simp only at hne
    constructor
    · simp [convertToPdf, hn, hl, pdfBody, hps, hnav, hne]
    · simp [convertToPdf, hn, hl, pdfBody, hps, hnav, hne]
  · intro hok
    simp only at hok
    subst hok
    rcases hsh : env.pdfRender with e | bytes
    · simp [convertToPdf, hn, hl, pdfBody, hps, hnav, hsh]
    · rcases hup : env.upload with e | u
      · simp [convertToPdf, hn, hl, pdfBody, hps, hnav, hsh, hup]
      · simp [convertToPdf, hn, hl, pdfBody, hps, hnav, hsh, hup]

/-- C2 (amended): the navigation attempts follow the schedule
`ladderPlanSteps` — requested wait condition, `"load"` only after a timeout,
`"domcontentloaded"`, then against the `www.` host (when not already `www.`)
the requested wait condition, `"load"` after ANY failure (not only a timeout),
and `"domcontentloaded"`.  The run succeeds iff some attempt succeeds (an
intermediate timeout is never the final outcome then), the final outcome is
always the last attempt's outcome, and on total failure both pipelines return
`ok:false` classified `NAV_TIMEOUT` exactly when that last outcome was a
timeout (else `NAV_FAIL`) without reaching their capture step, while any
successful attempt lets them proceed to it. -/
theorem nav_ladder_amended :
    (∀ (env : NavEnv) (want : Wait) (sw : Bool),
      runLadder env want sw = runPlan env sw (ladderPlanSteps want) [] .fail) ∧
    (∀ (env : NavEnv) (want : Wait) (sw : Bool),
      ((runLadder env want sw).2 = .ok ↔
        ∃ a ∈ (runLadder env want sw).1, a.outcome = .ok)) ∧
    (∀ (env : NavEnv) (want : Wait) (sw : Bool),
      ∃ a, (runLadder env want sw).1.getLast? = some a ∧
        a.outcome = (runLadder env want sw).2) ∧
    (∀ (env : CaptureEnv) (sid : String) (args : ShotArgs) (u0 : UrlModel),
      env.launch = .ok () → env.pageSetup = .ok () →
      normalizeUrl args.url = some u0 →
      ((runLadder env.nav (args.waitUntil.getD .networkidle0)
          (jsStartsWith u0.host "www.")).2 ≠ .ok →
        (captureScreenshot env sid args).1 =
          .ok (navFailShot (runLadder env.nav (args.waitUntil.getD .networkidle0)
            (jsStartsWith u0.host "www.")).2) ∧
        Effect.captureShot ∉ (captureScreenshot env sid args).2) ∧
      ((runLadder env.nav (args.waitUntil.getD .networkidle0)
          (jsStartsWith u0.host "www.")).2 = .ok →
        Effect.captureShot ∈ (captureScreenshot env sid args).2)) ∧
    (∀ (env : CaptureEnv) (sid : String) (args : PdfArgs) (u0 : UrlModel),
      env.launch = .ok () → env.pageSetup = .ok () →
      normalizeUrl args.url = some u0 →
      ((runLadder env.nav (args.waitUntil.getD .networkidle0)
          (jsStartsWith u0.host "www.")).2 ≠ .ok →
        (convertToPdf env sid args).1 =
          .ok (navFailPdf (runLadder env.nav (args.waitUntil.getD .networkidle0)
            (jsStartsWith u0.host "www.")).2) ∧
        Effect.renderPdf ∉ (convertToPdf env sid args).2) ∧
      ((runLadder env.nav (args.waitUntil.getD .networkidle0)
          (jsStartsWith u0.host "www.")).2 = .ok →
        Effect.renderPdf ∈ (convertToPdf env sid args).2)) :=
  ⟨ladder_eq_plan, runLadder_ok_iff, runLadder_last,
   fun env sid args u0 hl hps hn => screenshot_nav_outcome env sid args u0 hl hps hn,
   fun env sid args u0 hl hps hn => pdf_nav_outcome env sid args u0 hl hps hn⟩

/-- Counterexample to C2 as stated: with the first three attempts failing
without a timeout and the fourth succeeding, the code's fourth attempt is the
`www.` host with `"load"` (retried after a plain failure), while the claim's
"same ladder" would skip `"load"` and attempt `"domcontentloaded"`. -/
theorem nav_ladder_counterexample :
    (runLadder navEnvC2 .networkidle0 false).1 =
      [⟨false, .networkidle0, .fail⟩, ⟨false, .domcontentloaded, .fail⟩,
       ⟨true, .networkidle0, .fail⟩, ⟨true, .load, .ok⟩] ∧
    (claimLadder navEnvC2 .networkidle0 false).1 =
      [⟨false, .networkidle0, .fail⟩, ⟨false, .domcontentloaded, .fail⟩,
       ⟨true, .networkidle0, .fail⟩, ⟨true, .domcontentloaded, .ok⟩] ∧
    (runLadder navEnvC2 .networkidle0 false).1 ≠
      (claimLadder navEnvC2 .networkidle0 false).1 :=
  ⟨by decide, by decide, by decide⟩

/-- Witness for `nav_ladder_amended`: an all-timeout run is classified
`NAV_TIMEOUT` without capturing; an all-ok run proceeds to capture/render. -/
theorem nav_ladder_witness :
    normalizeUrl shotArgsEx.url = some u0ex ∧
    (captureScreenshot captureEnvNavFail "sid" shotArgsEx).1 =
      .ok (navFailShot (runLadder captureEnvNavFail.nav
        (shotArgsEx.waitUntil.getD .networkidle0)
        (jsStartsWith u0ex.host "www.")).2) ∧
    Effect.captureShot ∉ (captureScreenshot captureEnvNavFail "sid" shotArgsEx).2 ∧
    Effect.captureShot ∈ (captureScreenshot captureEnvOk "sid" shotArgsEx).2 ∧
    Effect.renderPdf ∈ (convertToPdf captureEnvOk "sid" pdfArgsEx).2 :=
  ⟨by decide,
   ((nav_ladder_amended.2.2.2.1 captureEnvNavFail "sid" shotArgsEx u0ex rfl rfl
      (by decide)).1 (by decide)).1,
   ((nav_ladder_amended.2.2.2.1 captureEnvNavFail "sid" shotArgsEx u0ex rfl rfl
      (by decide)).1 (by decide)).2,
   (nav_ladder_amended.2.2.2.1 captureEnvOk "sid" shotArgsEx u0ex rfl rfl
      (by decide)).2 (by decide),
   (nav_ladder_amended.2.2.2.2 captureEnvOk "sid" pdfArgsEx u0ex rfl rfl
      (by decide)).2 (by decide)⟩

/-- C5: the planner returns a getWeather call exactly when the model
response's first tool call is named `getWeather`; a call failure yields `null`
rather than an error; the argument value is taken as-is when a keyed object,
parsed when a JSON-encoded string, and replaced by the empty object on any
malformed or non-object input — and, being a total function into `Option`,
the embedded planner never raises. -/
theorem planner_spec_correct (jsonParse : String → Option JVal)
    (aiOut : Except JsErr JVal) :
    tryPlanTool jsonParse aiOut = planSpec jsonParse aiOut := by
  cases aiOut with
  | error e => rfl
  | ok out =>
    cases out with
    | jnull => rfl
    | jbool b => rfl
    | jnum q => rfl
    | jstr s => rfl
    | jarr es => rfl
    | jobj fields =>
      simp only [tryPlanTool, planSpec, isRecord, firstToolCall, if_true,
        Option.some_bind]
      cases hc : jget (.jobj fields) "tool_calls" with
      | none => simp [hc]
      | some v =>
        cases v with
        | jarr es =>
          cases es with
          | nil => simp [hc]
          | cons call rest =>
            simp only [hc]
            cases hn : (jget call "function").bind (fun f => jget f "name") with
            | none => simp [toolCallName, hn]
            | some nv =>
              cases nv with
              | jstr n =>
                by_cases he : n = "getWeather"
                · simp [toolCallName, hn, he, parseToolArgs, toolCallArgs]
                · simp [toolCallName, hn, he]
              | jnull => simp [toolCallName, hn]
              | jbool b => simp [toolCallName, hn]
              | jnum q => simp [toolCallName, hn]
              | jarr a => simp [toolCallName, hn]
              | jobj o => simp [toolCallName, hn]
        | jnull => simp [hc]
        | jbool b => simp [hc]
        | jnum q => simp [hc]
        | jstr s => simp [hc]
        | jobj o => simp [hc]

/-- Helper: appending one string to a joined list. -/
theorem join_snoc (l : List String) (d : String) :
    String.join (l ++ [d]) = String.join l ++ d := by
  simp [String.join, List.foldl_append]

/-- Helper: the relay loop's emitted deltas are exactly the per-payload
contributions, one per consumed payload, in order. -/
theorem relay_deltas (parse : String → SseParse) :
    ∀ (ps : List String) (acc : List String × String),
      (ps.foldl (relayStep parse) acc).1 =
        acc.1 ++ ps.filterMap (payloadStep parse) := by
  intro ps
  induction ps with
  | nil => intro acc; simp
  | cons p t ih =>
    intro acc
    rw [List.foldl_cons, List.filterMap_cons]
    cases h : payloadStep parse p with
    | none => simp [relayStep, h, ih]
    | some d => simp [relayStep, h, ih]

/-- Helper: the accumulated `full` text is the concatenation of the emitted
deltas. -/
theorem relay_full (parse : String → SseParse) :
    ∀ (ps : List String) (acc : List String × String),
      acc.2 = String.join acc.1 →
      (ps.foldl (relayStep parse) acc).2 =
        String.join (ps.foldl (relayStep parse) acc).1 := by
  intro ps
  induction ps with
  | nil => intro acc h; simpa using h
  | cons p t ih =>
    intro acc h
    rw [List.foldl_cons]
    cases hp : payloadStep parse p with
    | none =>
      have hr : relayStep parse acc p = acc := by simp [relayStep, hp]
      rw [hr]
      exact ih acc h
    | some d =>
      have hr : relayStep parse acc p = (acc.1 ++ [d], acc.2 ++ d) := by
        simp [relayStep, hp]
      rw [hr]
      exact ih _ (by simp [join_snoc, h])

/-- Helper: `streamAI` stops at the `[DONE]` sentinel — every line after it is
ignored. -/
theorem streamAI_done_stops (parse : String → Option String)
    (acc : List String × String) (pre post : List String) :
    streamAIGo parse acc (pre ++ "data: [DONE]" :: post) =
      streamAIGo parse acc (pre ++ ["data: [DONE]"]) := by
  induction pre generalizing acc with
  | nil =>
    have h : streamAIPayload "data: [DONE]" = some "[DONE]" := by decide
    simp [streamAIGo, h]
  | cons l t ih =>
    cases h : streamAIPayload l with
    | none =>
      simp only [List.cons_append, streamAIGo, h]
      exact ih acc
    | some payload =>
      simp only [List.cons_append, streamAIGo, h]
      by_cases hd : payload = "[DONE]"
      · simp [hd]
      · simp only [if_neg hd]
        cases hp : parse payload with
        | some d =>
          by_cases h0 : d = ""
          · simp only [if_pos h0]
            exact ih acc
          · simp only [if_neg h0]
            exact ih _
        | none => exact ih _

/-- C6 (amended): in `#streamAssistant` a `[DONE]` data payload contributes
nothing (it is neither emitted nor accumulated), but consumption CONTINUES —
the emitted deltas are exactly the per-payload contributions of every consumed
payload, before and after the sentinel, and the accumulated text is their
concatenation; only the `streamAI` helper terminates consumption at the
sentinel, ignoring all later lines. -/
theorem done_sentinel_amended :
    (∀ (parse : String → SseParse), payloadStep parse "[DONE]" = none) ∧
    (∀ (parse : String → SseParse) (chunks : List String),
      (streamAssistantRelay parse chunks).1 =
        (dataPayloads (String.join chunks)).filterMap (payloadStep parse)) ∧
    (∀ (parse : String → SseParse) (chunks : List String),
      (streamAssistantRelay parse chunks).2 =
        String.join (streamAssistantRelay parse chunks).1) ∧
    (∀ (parse : String → Option String) (acc : List String × String)
      (pre post : List String),
      streamAIGo parse acc (pre ++ "data: [DONE]" :: post) =
        streamAIGo parse acc (pre ++ ["data: [DONE]"])) := by
  refine ⟨fun parse => by simp [payloadStep], ?_, ?_, streamAI_done_stops⟩
  · intro parse chunks
    simpa using relay_deltas parse (dataPayloads (String.join chunks)) ([], "")
  · intro parse chunks
    exact relay_full parse (dataPayloads (String.join chunks)) ([], "") rfl

/-- Counterexample to C6 as stated: after the `[DONE]` payload is consumed,
`#streamAssistant` still emits a delta for the later `"hello"` payload (which
is not JSON, so the raw-fallback branch forwards it) and appends it to the
accumulated text — consumption did not terminate at the sentinel. -/
theorem done_sentinel_counterexample :
    dataPayloads (String.join c6chunks) = ["[DONE]", "hello"] ∧
    streamAssistantRelay sseFailParse c6chunks = (["hello"], "hello") :=
  ⟨by decide, by decide⟩

/-- Helper: folding `max` commutes out of the accumulator. -/
theorem max_foldl_comm (l : List ℚ) : ∀ a b : ℚ,
    l.foldl max (max a b) = max a (l.foldl max b) := by
  induction l with
  | nil => intro a b; rfl
  | cons c t ih =>
    intro a b
    rw [List.foldl_cons, List.foldl_cons, max_assoc, ih]

/-- Helper: a `max`-fold in terms of `List.max?`. -/
theorem foldl_max_max? (l : List ℚ) (m0 : ℚ) :
    l.foldl max m0 = match l.max? with | none => m0 | some p => max m0 p := by
  cases l with
  | nil => rfl
  | cons q t =>
    show (q :: t).foldl max m0 = max m0 (t.foldl max q)
    rw [List.foldl_cons, max_foldl_comm]

/-- Helper: a `max`-fold only grows. -/
theorem le_foldl_max (l : List ℚ) : ∀ m0 : ℚ, m0 ≤ l.foldl max m0 := by
  induction l with
  | nil => intro m0; simp
  | cons q t ih =>
    intro m0
    rw [List.foldl_cons]
    exact le_trans (le_max_left m0 q) (ih (max m0 q))

/-- Helper: the source's strict-`>` update computes `max`. -/
theorem hiStep_max (h q : ℚ) : (if h < q then q else h) = max h q := by
  rcases le_or_lt q h with hle | hlt
  · simp [not_lt.mpr hle, max_eq_left hle]
  · simp [hlt, max_eq_right hlt.le]

/-- Helper: the source's strict-`<` update computes `min`. -/
theorem loStep_min (l q : ℚ) : (if q < l then q else l) = min l q := by
  rcases le_or_lt l q with hle | hlt
  · simp [not_lt.mpr hle, min_eq_left hle]
  · simp [hlt, min_eq_right hlt.le]

/-- Helper: the `weeklyHigh` fold from a finite start. -/
theorem foldl_hiStep_some (l : List WDay) : ∀ q : ℚ,
    l.foldl hiStep (some q) = some ((l.filterMap (·.tMax)).foldl max q) := by
  induction l with
  | nil => intro q; rfl
  | cons d t ih =>
    intro q
    rw [List.foldl_cons, List.filterMap_cons]
    cases hm : d.tMax with
    | none => simp [hiStep, hm, ih]
    | some x =>
      have hstep : hiStep (some q) d = some (max q x) := by
        simp only [hiStep, hm]
        rw [show (if q < x then some x else some q) = some (if q < x then x else q)
          from by split <;> rfl, hiStep_max]
      rw [hstep, ih]
      simp

/-- Helper: the `weeklyHigh` fold is the maximum of the finite daily maximum
temperatures — the claim's "weekly high = max of daily max temps". -/
theorem foldl_hiStep_none (l : List WDay) :
    l.foldl hiStep none = (l.filterMap (·.tMax)).max? := by
  induction l with
  | nil => rfl
  | cons d t ih =>
    rw [List.foldl_cons, List.filterMap_cons]
    cases hm : d.tMax with
    | none => simp [hiStep, hm, ih]
    | some x =>
      have hstep : hiStep none d = some x := by simp [hiStep, hm]
      rw [hstep, foldl_hiStep_some]
      rfl

/-- Helper: the `weeklyLow` fold from a finite start. -/
theorem foldl_loStep_some (l : List WDay) : ∀ q : ℚ,
    l.foldl loStep (some q) = some ((l.filterMap (·.tMin)).foldl min q) := by
  induction l with
  | nil => intro q; rfl
  | cons d t ih =>
    intro q
    rw [List.foldl_cons, List.filterMap_cons]
    cases hm : d.tMin with
    | none => simp [loStep, hm, ih]
    | some x =>
      have hstep : loStep (some q) d = some (min q x) := by
        simp only [loStep, hm]
        rw [show (if x < q then some x else some q) = some (if x < q then x else q)
          from by split <;> rfl, loStep_min]
      rw [hstep, ih]
      simp

/-- Helper: the `weeklyLow` fold is the minimum of the finite daily minimum
temperatures. -/
theorem foldl_loStep_none (l : List WDay) :
    l.foldl loStep none = (l.filterMap (·.tMin)).min? := by
  induction l with
  | nil => rfl
  | cons d t ih =>
    rw [List.foldl_cons, List.filterMap_cons]
    cases hm : d.tMin with
    | none => simp [loStep, hm, ih]
    | some x =>
      have hstep : loStep none d = some x := by simp [loStep, hm]
      rw [hstep, foldl_loStep_some]
      rfl

/-- Helper: the running `maxPop` only grows. -/
theorem le_popMaxFrom (l : List WDay) (m0 : ℚ) : m0 ≤ popMaxFrom m0 l :=
  le_foldl_max _ m0

/-- Helper: the `maxPop`/`wetIdx` fold computes the running maximum of the
finite precipitation probabilities together with the index of its FIRST
occurrence (ties broken by first occurrence, strictly-greater update). -/
theorem foldl_wetStep (l : List WDay) : ∀ (m0 : ℚ) (wi0 : Option Nat) (k0 : Nat),
    l.foldl wetStep (m0, wi0, k0) =
      (popMaxFrom m0 l,
       (if popMaxFrom m0 l = m0 then wi0
        else l.findIdx? (fun d => d.pop = some (popMaxFrom m0 l)) k0),
       k0 + l.length) := by
  induction l with
  | nil => intro m0 wi0 k0; simp [popMaxFrom]
  | cons d t ih =>
    intro m0 wi0 k0
    rw [List.foldl_cons]
    cases hp : d.pop with
    | none =>
      have hpm : popMaxFrom m0 (d :: t) = popMaxFrom m0 t := by
        simp [popMaxFrom, List.filterMap_cons, hp]
      have hw : wetStep (m0, wi0, k0) d = (m0, wi0, k0 + 1) := by
        simp [wetStep, hp]
      rw [hw, ih, hpm]
      refine Prod.ext rfl (Prod.ext ?_ ?_)
      · by_cases h0 : popMaxFrom m0 t = m0
        · simp [h0]
        · rw [if_neg h0, if_neg h0, List.findIdx?_cons]
          have : (decide (d.pop = some (popMaxFrom m0 t))) = false := by
            simp [hp]
          rw [this]
          simp
      · simp [Nat.add_assoc, Nat.add_comm 1]
    | some p =>
      by_cases hlt : m0 < p
      · have hw : wetStep (m0, wi0, k0) d = (p, some k0, k0 + 1) := by
          simp [wetStep, hp, hlt]
        have hpm : popMaxFrom m0 (d :: t) = popMaxFrom p t := by
          simp [popMaxFrom, List.filterMap_cons, hp, max_eq_right hlt.le]
        rw [hw, ih, hpm]
        have hMp : p ≤ popMaxFrom p t := le_popMaxFrom t p
        have hMm0 : popMaxFrom p t ≠ m0 := ne_of_gt (lt_of_lt_of_le hlt hMp)
        refine Prod.ext rfl (Prod.ext ?_ ?_)
        · rw [if_neg hMm0, List.findIdx?_cons]
          by_cases hpe : popMaxFrom p t = p
          · rw [if_pos hpe]
            have : (decide (d.pop = some (popMaxFrom p t))) = true := by
              simp [hp, hpe]
            rw [this]
            simp
          · rw [if_neg hpe]
            have : (decide (d.pop = some (popMaxFrom p t))) = false := by
              simp [hp]
              exact fun h => absurd h.symm hpe
            rw [this]
            simp
        · simp [Nat.add_assoc, Nat.add_comm 1]
      · have hw : wetStep (m0, wi0, k0) d = (m0, wi0, k0 + 1) := by
          simp [wetStep, hp, hlt]
        have hpm : popMaxFrom m0 (d :: t) = popMaxFrom m0 t := by
          simp [popMaxFrom, List.filterMap_cons, hp, max_eq_left (not_lt.mp hlt)]
        rw [hw, ih, hpm]
        refine Prod.ext rfl (Prod.ext ?_ ?_)
        · by_cases h0 : popMaxFrom m0 t = m0
          · simp [h0]
          · rw [if_neg h0, if_neg h0, List.findIdx?_cons]
            have hgt : m0 < popMaxFrom m0 t :=
              lt_of_le_of_ne (le_popMaxFrom t m0) (Ne.symm h0)
            have : (decide (d.pop = some (popMaxFrom m0 t))) = false := by
              simp [hp]
              intro h
              rw [h] at hlt
              exact hlt hgt
            rw [this]
            simp
        · simp [Nat.add_assoc, Nat.add_comm 1]

set_option maxHeartbeats 1000000 in
/-- C3 (amended): for a non-empty daily list the deterministic summary is
exactly the three claim-side sentences computed over at most the first 7
days — the high/low sentence over the max of the finite daily maxima and the
min of the finite daily minima (with the stated fallbacks), the precipitation
sentence naming the first day attaining the peak probability when the
displayed peak is positive, and the packing sentence with the claim's
umbrella/layering/light rule WHEN both weekly high and low are finite,
but a flexible-layers recommendation (regardless of precipitation) when
either is missing. -/
theorem weekly_summary_amended (fmtDate : String → String) (place : WPlace)
    (unitT : String) (daily : List WDay) (_hne : daily ≠ []) :
    streamSummaryParts fmtDate place unitT daily =
      [specTempLine place unitT daily, specPrecipLine fmtDate daily,
       specPackLine daily] := by
  simp only [streamSummaryParts, specTempLine, specPrecipLine, specPackLine,
    hiRounded, loRounded, weeklyHighSpec, weeklyLowSpec, popRounded,
    peakPopSpec, wetDateSpec, foldl_hiStep_none, foldl_loStep_none,
    foldl_wetStep]
  rcases hpk : ((daily.take 7).filterMap (fun d => d.pop)).max? with _ | p
  · have hpm : popMaxFrom (-1) (daily.take 7) = -1 := by
      rw [popMaxFrom, foldl_max_max?, hpk]
    rw [hpm]
    simp +decide [hpk]
  · by_cases hp0 : (0 : ℚ) ≤ p
    · have hpm : popMaxFrom (-1) (daily.take 7) = p := by
        rw [popMaxFrom, foldl_max_max?, hpk]
        exact max_eq_right (le_trans (by norm_num) hp0)
      have hne1 : p ≠ -1 := by
        intro h
        rw [h] at hp0
        norm_num at hp0
      rw [hpm]
      simp only [hpk, if_pos hp0, if_neg hne1]
      refine congrArg₂ List.cons rfl (congrArg₂ List.cons ?_ rfl)
      rcases hfi : List.findIdx? (fun d => decide (d.pop = some p)) (daily.take 7)
        with _ | i
      · simp [hfi]
      · simp only [hfi]
        by_cases hx :
            (Option.map (fun (x : WDay) => x.date) (daily.take 7)[i]?).getD "" = ""
        · simp [hx]
        · simp [hx]
    · have hmax : max (-1 : ℚ) p = -1 ∨ max (-1 : ℚ) p = p := max_choice _ _
      have hneg : ¬ (0 : ℚ) ≤ max (-1) p := by
        rcases hmax with h | h <;> rw [h]
        · norm_num
        · exact hp0
      have hpm : popMaxFrom (-1) (daily.take 7) = max (-1) p := by
        rw [popMaxFrom, foldl_max_max?, hpk]
      rw [hpm]
      simp only [hpk, if_neg hneg, if_neg hp0]

/-- Counterexample to C3 as stated: a forecast whose only day has `NaN` daily
maximum temperature, minimum 20 and precipitation probability 80% — the peak
probability is 80 ≥ 40, so the claim mandates umbrella advice, but the code's
third sentence is the flexible-layers fallback. -/
theorem weekly_summary_counterexample :
    peakPopSpec [c3day] = some 80 ∧
    ((40 : ℚ) ≤ 80) ∧
    (streamSummaryParts (fun s => s) c3place "°C" [c3day]).get? 2 =
      some "Pack flexible layers to handle changes through the week." ∧
    "Pack flexible layers to handle changes through the week." ≠
      "Pack layers and bring a small umbrella or rain jacket just in case." :=
  ⟨by decide, by decide, by decide, by decide⟩

/-- Witness for `weekly_summary_amended`, at the spec's own example forecast
(`[{tMax:30,tMin:20,pop:10},{tMax:28,tMin:18,pop:75}]`). -/
theorem weekly_summary_witness :
    specDays ≠ [] ∧
    streamSummaryParts (fun s => s) ⟨"Montreal", some "Quebec", some "Canada"⟩
        "°C" specDays =
      [specTempLine ⟨"Montreal", some "Quebec", some "Canada"⟩ "°C" specDays,
       specPrecipLine (fun s => s) specDays, specPackLine specDays] :=
  ⟨by simp [specDays],
   weekly_summary_amended (fun s => s) ⟨"Montreal", some "Quebec", some "Canada"⟩
     "°C" specDays (by simp [specDays])⟩

end AgentSpec
